import Mathlib

/-!
# OpenYurt tunnel agent: identifier validation and proxy port resolution

A shallow embedding of

* `cmd/yurt-tunnel-agent/app/options/options.go` (`agentIdentifiersAreValid`), and
* the proxy port resolver `resolveProxyPortsAndMappings` exercised by
  `pkg/yurttunnel/util/util_test.go`.

Go strings are embedded as Lean strings (UTF-8 text); `strings.Split` is only ever called
with a one-character ASCII separator, so the separator is a `Char`: an ASCII byte never
occurs inside the encoding of another character, and splitting on the character is
splitting on the byte.
-/

namespace strings

/-- The pieces of `cs` between the occurrences of `sep`: one more piece than there are
separators, so the empty input gives one empty piece. -/
def splitChars (sep : Char) : List Char → List (List Char)
  | [] => [[]]
  | c :: cs =>
    if c = sep then [] :: splitChars sep cs
    else
      match splitChars sep cs with
      | [] => [[c]]
      | p :: ps => (c :: p) :: ps

/-- Go `strings.Split(s, sep)` for a one-character separator. -/
def Split (s : String) (sep : Char) : List String :=
  (splitChars sep s.data).map String.mk

/-- The elements of `elems` put one after the other with `sep` between them. -/
def joinChars (sep : Char) : List (List Char) → List Char
  | [] => []
  | [e] => e
  | e :: r :: rest => e ++ sep :: joinChars sep (r :: rest)

/-- Go `strings.Join(elems, sep)` for a one-character separator; it writes back an
identifiers string from its entries. -/
def Join (elems : List String) (sep : Char) : String :=
  String.mk (joinChars sep (elems.map String.data))

end strings

namespace agent

/-- Modelled from the spec: the constant `agent.Host` of the imported package
`sigs.k8s.io/apiserver-network-proxy/pkg/agent`, which is not among the sources; the spec
lists the recognised types as host, CIDR, IPv4, IPv6, UID. -/
def Host : String := "host"

/-- Modelled from the spec: the constant `agent.CIDR` of the imported package `agent`. -/
def CIDR : String := "CIDR"

/-- Modelled from the spec: the constant `agent.IPv4` of the imported package `agent`. -/
def IPv4 : String := "IPv4"

/-- Modelled from the spec: the constant `agent.IPv6` of the imported package `agent`. -/
def IPv6 : String := "IPv6"

/-- Modelled from the spec: the constant `agent.UID` of the imported package `agent`. -/
def UID : String := "UID"

/-- The `case agent.Host, agent.CIDR, agent.IPv4, agent.IPv6, agent.UID:` arm of the switch
on `agent.IdentifierType(parts[0])`. -/
def isIdentifierType (t : String) : Bool :=
  decide (t = Host ∨ t = CIDR ∨ t = IPv4 ∨ t = IPv6 ∨ t = UID)

end agent

namespace options

/-- One entry passes the loop body of `agentIdentifiersAreValid` exactly when it splits on
`=` into two parts, the first of which is a recognised identifier type. -/
def entryIsValid (entry : String) : Prop :=
  ∃ t v, strings.Split entry '=' = [t, v] ∧
    (t = agent.Host ∨ t = agent.CIDR ∨ t = agent.IPv4 ∨ t = agent.IPv6 ∨ t = agent.UID)

/-- The body of `for i := range entries` in `agentIdentifiersAreValid`: the first entry that
does not split on `=` into two parts, or whose first part is no identifier type, returns
false; running off the end of `entries` returns true. -/
def entriesAreValid : List String → Bool
  | [] => true
  | entry :: rest =>
    let parts := strings.Split entry '='
    if parts.length ≠ 2 then false
    else if agent.isIdentifierType (parts.getD 0 "") then entriesAreValid rest
    else false

/-- Go `agentIdentifiersAreValid`: the empty string is valid, any other string is split on
`,` and every entry is checked. `len` of a Go string is its length in bytes. -/
def agentIdentifiersAreValid (agentIdentifiers : String) : Bool :=
  if agentIdentifiers.utf8ByteSize = 0 then true
  else entriesAreValid (strings.Split agentIdentifiers ',')

/-- Go `AgentOptions`: the information required by the tunnel agent. -/
structure AgentOptions where
  NodeName : String
  NodeIP : String
  TunnelServerAddr : String
  ApiserverAddr : String
  KubeConfig : String
  Version : Bool
  AgentIdentifiers : String
  deriving DecidableEq, Repr

/-- The last check of `Validate`: the identifiers string has to be valid. -/
def validateAgentIdentifiers (o : AgentOptions) : AgentOptions × Option String :=
  if !agentIdentifiersAreValid o.AgentIdentifiers then
    (o, some "--agent-identifiers are invalid, format should be host=\x7bnode-name\x7d")
  else (o, none)

/-- The second check of `Validate` and what follows it: an empty `NodeIP` is read from
`$NODE_IP`, and is an error when that is empty too. -/
def validateNodeIP (o : AgentOptions) (getenv : String → String) :
    AgentOptions × Option String :=
  if o.NodeIP = "" then
    let o1 := { o with NodeIP := getenv "NODE_IP" }
    if o1.NodeIP = "" then (o1, some "either --node-ip or $NODE_IP has to be set")
    else validateAgentIdentifiers o1
  else validateAgentIdentifiers o

/-- Go `(o *AgentOptions) Validate()`, with the environment as the explicit input `getenv`
(`os.Getenv`, the empty string for an unset variable). The receiver is a pointer, so the
options as the call leaves them are returned next to the error (`none` for `nil`). -/
def AgentOptions.Validate (o : AgentOptions) (getenv : String → String) :
    AgentOptions × Option String :=
  if o.NodeName = "" then
    let o1 := { o with NodeName := getenv "NODE_NAME" }
    if o1.NodeName = "" then (o1, some "either --node-name or $NODE_NAME has to be set")
    else validateNodeIP o1 getenv
  else validateNodeIP o getenv

/-- The constant `defaultKubeconfig`. -/
def defaultKubeconfig : String := "/etc/kubernetes/kubelet.conf"

/-- The struct `config.Config` of package `cmd/yurt-tunnel-agent/app/config`, whose
declaration is not among the sources: the fields that `AgentOptions.Config` assigns. The
type `κ` of the client set is left open. -/
structure Config (κ : Type) where
  NodeName : String
  NodeIP : String
  TunnelServerAddr : String
  AgentIdentifiers : String
  Client : κ

/-- The text `fmt.Sprintf("ipv4=%s&host=%s", nodeIP, nodeName)`. -/
def defaultAgentIdentifiers (nodeIP nodeName : String) : String :=
  "ipv4=" ++ nodeIP ++ "&host=" ++ nodeName

/-- Go `(o *AgentOptions) Config()`. The constructors of the client set,
`kubeutil.CreateClientSetKubeConfig` and `kubeutil.CreateClientSetApiserverAddr`, belong to
another package and are parameters; each returns a client and an error. Logging is left
out. -/
def AgentOptions.Config {κ : Type} (o : AgentOptions)
    (CreateClientSetKubeConfig CreateClientSetApiserverAddr : String → κ × Option String) :
    Config κ × Option String :=
  let agentIdentifiers :=
    if o.AgentIdentifiers.utf8ByteSize = 0 then defaultAgentIdentifiers o.NodeIP o.NodeName
    else o.AgentIdentifiers
  let kubeConfig :=
    if o.KubeConfig = "" ∧ o.ApiserverAddr = "" then defaultKubeconfig else o.KubeConfig
  let created :=
    if kubeConfig ≠ "" then CreateClientSetKubeConfig kubeConfig
    else CreateClientSetApiserverAddr o.ApiserverAddr
  ({ NodeName := o.NodeName
     NodeIP := o.NodeIP
     TunnelServerAddr := o.TunnelServerAddr
     AgentIdentifiers := agentIdentifiers
     Client := created.1 }, created.2)

end options

namespace util

/-- The configuration record (`cm.Data`) and the returned `portMappings`: string maps, kept
as association lists in insertion order. -/
abbrev StringMap := List (String × String)

/-- Map lookup `m[k]`: the value of the first binding of `k`. -/
def mapGet : StringMap → String → Option String
  | [], _ => none
  | (k1, v) :: rest, k => if k1 = k then some v else mapGet rest k

/-- Map assignment `m[k] = v`: overwrites the binding of `k` in place, or adds one. -/
def mapSet : StringMap → String → String → StringMap
  | [], k, v => [(k, v)]
  | (k1, v1) :: rest, k, v => if k1 = k then (k, v) :: rest else (k1, v1) :: mapSet rest k v

/-- The keys of a map, in insertion order. -/
def mapKeys (m : StringMap) : List String := m.map Prod.fst

/-- The record key of the explicit port-translation pairs. -/
def dnatPortsPairKey : String := "dnat-ports-pair"

/-- The record key of the plain HTTP source ports. -/
def httpProxyPortsKey : String := "http-proxy-ports"

/-- The record key of the HTTPS source ports. -/
def httpsProxyPortsKey : String := "https-proxy-ports"

/-- The two ways the resolver fails. -/
inductive ResolveError where
  | FormatError
  | UnresolvedTargetError
  deriving DecidableEq, Repr

/-- Modelled from the spec: the port component of a listener address in `host:port` form,
the text after its last `:`; an address without `:` has none. -/
def portComponent (addr : String) : Option String :=
  match strings.Split addr ':' with
  | [] => none
  | [_] => none
  | parts => parts.getLast?

/-- Modelled from the spec: the number a port string denotes, a non-empty run of decimal
digits. -/
def parsePort (s : String) : Option Nat :=
  if s.data ≠ [] ∧ s.data.all Char.isDigit = true then
    some (s.data.foldl (fun n c => 10 * n + (c.toNat - 48)) 0)
  else none

/-- Modelled from the spec: `targetPort` numerically equals the port component of the
listener address `addr`. -/
def targetMatches (targetPort addr : String) : Bool :=
  match parsePort targetPort, (portComponent addr).bind parsePort with
  | some a, some b => decide (a = b)
  | _, _ => false

/-- The accumulator of the resolver: the ordered source ports and their destinations. -/
structure Table where
  ports : List String
  portMappings : StringMap
  deriving DecidableEq, Repr

/-- The invariant of the table: the keys of `portMappings`, in insertion order, are the
elements of `ports`, and no port is listed twice. -/
def Table.Consistent (t : Table) : Prop :=
  mapKeys t.portMappings = t.ports ∧ t.ports.Nodup

/-- Modelled from the spec: append `port` to `ports` (if not already present) and set
`portMappings[port]` to `dst`. -/
def addPort (t : Table) (port dst : String) : Table :=
  { ports := if port ∈ t.ports then t.ports else t.ports ++ [port]
    portMappings := mapSet t.portMappings port dst }

/-- Modelled from the spec: step 2 of the resolver of `pkg/yurttunnel/util`, whose source
is not among the files. For each pair in turn: split on `=`, not exactly 2 parts is a
FormatError; the target port must numerically equal the port of `insecureAddr` or of
`secureAddr` (tried in this order), neither is an UnresolvedTargetError; otherwise the
source port is added with the matched listener address. -/
def resolveDnatPairs (insecureAddr secureAddr : String) :
    List String → Table → Except ResolveError Table
  | [], t => .ok t
  | pair :: rest, t =>
    match strings.Split pair '=' with
    | [srcPort, targetPort] =>
      if targetMatches targetPort insecureAddr then
        resolveDnatPairs insecureAddr secureAddr rest (addPort t srcPort insecureAddr)
      else if targetMatches targetPort secureAddr then
        resolveDnatPairs insecureAddr secureAddr rest (addPort t srcPort secureAddr)
      else .error .UnresolvedTargetError
    | _ => .error .FormatError

/-- Modelled from the spec: steps 3 and 4 of the resolver, each listed port is added with
the fixed destination `dst`. -/
def addPorts (dst : String) : List String → Table → Table
  | [], t => t
  | port :: rest, t => addPorts dst rest (addPort t port dst)

/-- The ports a key of the record lists: the comma-separated entries of its value, and no
port at all when the key is absent. -/
def listedPorts (cm : StringMap) (key : String) : List String :=
  match mapGet cm key with
  | some v => strings.Split v ','
  | none => []

/-- Modelled from the spec: `resolveProxyPortsAndMappings` of `pkg/yurttunnel/util`, of
which only the test is among the sources. Starts from the empty table, runs the
`dnat-ports-pair` pairs, then the `http-proxy-ports` list towards `insecureAddr`, then the
`https-proxy-ports` list towards `secureAddr`; an absent key contributes nothing. Returns
`(ports, portMappings, err)`; on an error the resolver aborts and returns no partial
table. -/
def resolveProxyPortsAndMappings (cm : StringMap) (insecureAddr secureAddr : String) :
    List String × StringMap × Option ResolveError :=
  let t0 : Table := { ports := [], portMappings := [] }
  let dnat : Except ResolveError Table :=
    match mapGet cm dnatPortsPairKey with
    | some v => resolveDnatPairs insecureAddr secureAddr (strings.Split v ',') t0
    | none => .ok t0
  match dnat with
  | .error e => ([], [], some e)
  | .ok t1 =>
    let t2 : Table :=
      match mapGet cm httpProxyPortsKey with
      | some v => addPorts insecureAddr (strings.Split v ',') t1
      | none => t1
    let t3 : Table :=
      match mapGet cm httpsProxyPortsKey with
      | some v => addPorts secureAddr (strings.Split v ',') t2
      | none => t2
    (t3.ports, t3.portMappings, none)

end util

/-! ## Splitting -/

namespace strings

theorem splitChars_ne_nil (sep : Char) (l : List Char) : splitChars sep l ≠ [] := by
  induction l with
  | nil => simp [splitChars]
  | cons c cs ih =>
    unfold splitChars
    split
    · simp
    · split <;> simp

theorem splitChars_of_not_mem (sep : Char) (l : List Char) (h : sep ∉ l) :
    splitChars sep l = [l] := by
  induction l with
  | nil => rfl
  | cons c cs ih =>
    have hc : c ≠ sep := fun e => h (by simp [e])
    have hcs : sep ∉ cs := fun e => h (by simp [e])
    simp [splitChars, hc, ih hcs]

theorem splitChars_append_sep (sep : Char) (a b : List Char) :
    splitChars sep (a ++ sep :: b) = splitChars sep a ++ splitChars sep b := by
  induction a with
  | nil => simp [splitChars]
  | cons c cs ih =>
    by_cases hc : c = sep
    · simp [splitChars, hc, ih]
    · obtain ⟨p, ps, hp⟩ := List.exists_cons_of_ne_nil (splitChars_ne_nil sep cs)
      simp [splitChars, hc, ih, hp]

theorem splitChars_length_eq_one (sep : Char) (l : List Char) :
    (splitChars sep l).length = 1 ↔ sep ∉ l := by
  constructor
  · intro h hmem
    obtain ⟨a, b, rfl⟩ := List.append_of_mem hmem
    rw [splitChars_append_sep, List.length_append] at h
    have ha := List.length_pos.mpr (splitChars_ne_nil sep a)
    have hb := List.length_pos.mpr (splitChars_ne_nil sep b)
    omega
  · intro h
    rw [splitChars_of_not_mem sep l h]
    rfl

theorem Split_of_not_mem (s : String) (sep : Char) (h : sep ∉ s.data) :
    Split s sep = [s] := by
  simp [Split, splitChars_of_not_mem sep s.data h]

theorem Split_append_sep (a b : String) (sep : Char) :
    Split (a ++ String.singleton sep ++ b) sep = Split a sep ++ Split b sep := by
  simp [Split, String.singleton, splitChars_append_sep]

theorem Split_length_eq_one (s : String) (sep : Char) :
    (Split s sep).length = 1 ↔ sep ∉ s.data := by
  simp [Split, splitChars_length_eq_one]

theorem Split_ne_nil (s : String) (sep : Char) : Split s sep ≠ [] := by
  simp [Split, splitChars_ne_nil]

end strings


/-! ## The identifier validator -/

namespace options

theorem utf8ByteSize_eq_zero (s : String) : s.utf8ByteSize = 0 ↔ s = "" := by
  cases s with
  | mk cs =>
    rw [String.utf8ByteSize_mk, String.utf8Len_eq_zero]
    constructor
    · intro h; rw [h]
    · intro h; exact congrArg String.data h

theorem entriesAreValid_cons (entry : String) (rest : List String) :
    entriesAreValid (entry :: rest) = true ↔ entryIsValid entry ∧ entriesAreValid rest = true := by
  rw [entriesAreValid.eq_2]
  unfold entryIsValid
  by_cases hlen : (strings.Split entry '=').length = 2
  · obtain ⟨t, v, hp⟩ := List.length_eq_two.mp hlen
    simp [hp, agent.isIdentifierType]
  · simp only [ne_eq, hlen, not_false_eq_true, if_true]
    constructor
    · intro h; cases h
    · rintro ⟨⟨t, v, hp, _⟩, _⟩
      exact absurd (by rw [hp]; rfl) hlen

theorem entriesAreValid_iff (entries : List String) :
    entriesAreValid entries = true ↔ ∀ e ∈ entries, entryIsValid e := by
  induction entries with
  | nil => simp [entriesAreValid]
  | cons e rest ih => rw [entriesAreValid_cons, ih]; simp

theorem entriesAreValid_append (xs ys : List String) :
    entriesAreValid (xs ++ ys) = (entriesAreValid xs && entriesAreValid ys) := by
  rw [Bool.eq_iff_iff]
  simp only [Bool.and_eq_true, entriesAreValid_iff, List.mem_append]
  constructor
  · intro h; exact ⟨fun e he => h e (Or.inl he), fun e he => h e (Or.inr he)⟩
  · rintro ⟨h1, h2⟩ e (he | he)
    · exact h1 e he
    · exact h2 e he

end options

namespace options

theorem agentIdentifiersAreValid_of_ne_empty (s : String) (hs : s ≠ "") :
    agentIdentifiersAreValid s = entriesAreValid (strings.Split s ',') := by
  have h : ¬ s.utf8ByteSize = 0 := fun h => hs ((utf8ByteSize_eq_zero s).mp h)
  simp [agentIdentifiersAreValid, h]

theorem append_sep_ne_empty (a b : String) (sep : Char) :
    a ++ String.singleton sep ++ b ≠ "" := by
  intro h
  have := congrArg String.data h
  simp [String.singleton] at this

/-- C1. For every non-empty string, `agentIdentifiersAreValid` returns true if and only if
every entry obtained by splitting on `,` splits on `=` into exactly two parts whose first part
is one of `agent.Host`, `agent.CIDR`, `agent.IPv4`, `agent.IPv6`, `agent.UID`; so one entry of
the wrong arity or of an unrecognised type makes the whole string invalid. -/
theorem agentIdentifiersAreValid_iff_entries (s : String) (hs : s ≠ "") :
    agentIdentifiersAreValid s = true ↔
      ∀ e ∈ strings.Split s ',', ∃ t v, strings.Split e '=' = [t, v] ∧
        (t = agent.Host ∨ t = agent.CIDR ∨ t = agent.IPv4 ∨ t = agent.IPv6 ∨ t = agent.UID) := by
  rw [agentIdentifiersAreValid_of_ne_empty s hs, entriesAreValid_iff]
  rfl

/-- C1 at the string `host=a,IPv4=10.0.0.1`, which is valid. -/
theorem agentIdentifiersAreValid_iff_entries_witness :
    "host=a,IPv4=10.0.0.1" ≠ "" ∧ agentIdentifiersAreValid "host=a,IPv4=10.0.0.1" = true ∧
      (agentIdentifiersAreValid "host=a,IPv4=10.0.0.1" = true ↔
        ∀ e ∈ strings.Split "host=a,IPv4=10.0.0.1" ',', ∃ t v, strings.Split e '=' = [t, v] ∧
          (t = agent.Host ∨ t = agent.CIDR ∨ t = agent.IPv4 ∨ t = agent.IPv6 ∨
            t = agent.UID)) :=
  ⟨by decide, by decide, agentIdentifiersAreValid_iff_entries "host=a,IPv4=10.0.0.1" (by decide)⟩

/-- C9. The empty identifiers string is valid. -/
theorem agentIdentifiersAreValid_empty : agentIdentifiersAreValid "" = true := by
  decide

theorem isIdentifierType_no_eq (t : String)
    (h : t = agent.Host ∨ t = agent.CIDR ∨ t = agent.IPv4 ∨ t = agent.IPv6 ∨ t = agent.UID) :
    '=' ∉ t.data := by
  rcases h with h | h | h | h | h <;> subst h <;> decide

theorem agentIdentifiersAreValid_single (t v : String) (ht : ',' ∉ t.data)
    (hv1 : ',' ∉ v.data) (hv2 : '=' ∉ v.data) :
    agentIdentifiersAreValid (t ++ "=" ++ v) = true ↔
      (t = agent.Host ∨ t = agent.CIDR ∨ t = agent.IPv4 ∨ t = agent.IPv6 ∨ t = agent.UID) := by
  have hne : t ++ "=" ++ v ≠ "" := append_sep_ne_empty t v '='
  have hcomma : ',' ∉ (t ++ "=" ++ v).data := by
    simp only [String.data_append, List.mem_append, not_or]
    exact ⟨⟨ht, by decide⟩, hv1⟩
  have hsplit : strings.Split (t ++ "=" ++ v) '=' = strings.Split t '=' ++ [v] := by
    rw [show ("=" : String) = String.singleton '=' from rfl, strings.Split_append_sep,
      strings.Split_of_not_mem v '=' hv2]
  rw [agentIdentifiersAreValid_of_ne_empty _ hne, strings.Split_of_not_mem _ ',' hcomma,
    entriesAreValid_cons]
  simp only [entriesAreValid, and_true, entryIsValid, hsplit]
  constructor
  · rintro ⟨t1, v1, hp, ht1⟩
    have hlen : (strings.Split t '=').length = 1 := by
      have := congrArg List.length hp
      simp at this
      exact this
    have hnot := (strings.Split_length_eq_one t '=').mp hlen
    rw [strings.Split_of_not_mem t '=' hnot] at hp
    simp at hp
    rw [hp.1]
    exact ht1
  · intro h
    refine ⟨t, v, ?_, h⟩
    rw [strings.Split_of_not_mem t '=' (isIdentifierType_no_eq t h)]
    rfl

/-- C10, amended. For every type string `t` without `,` and every value `v` containing
neither `,` nor `=`, `agentIdentifiersAreValid (t ++ "=" ++ v)` is true exactly when `t` is,
by case-sensitive exact match, one of `host`, `CIDR`, `IPv4`, `IPv6`, `UID`. -/
theorem agentIdentifiersAreValid_type_exact (t v : String) (ht : ',' ∉ t.data)
    (hv1 : ',' ∉ v.data) (hv2 : '=' ∉ v.data) :
    agentIdentifiersAreValid (t ++ "=" ++ v) = true ↔
      (t = "host" ∨ t = "CIDR" ∨ t = "IPv4" ∨ t = "IPv6" ∨ t = "UID") :=
  agentIdentifiersAreValid_single t v ht hv1 hv2

/-- C10, amended, at the type `Host` (wrong letter case) and the value `node-1`: rejected. -/
theorem agentIdentifiersAreValid_type_exact_witness :
    ',' ∉ "Host".data ∧ ',' ∉ "node-1".data ∧ '=' ∉ "node-1".data ∧
      agentIdentifiersAreValid ("Host" ++ "=" ++ "node-1") = false ∧
      (agentIdentifiersAreValid ("Host" ++ "=" ++ "node-1") = true ↔
        ("Host" = "host" ∨ "Host" = "CIDR" ∨ "Host" = "IPv4" ∨ "Host" = "IPv6" ∨
          "Host" = "UID")) :=
  ⟨by decide, by decide, by decide, by decide,
    agentIdentifiersAreValid_type_exact "Host" "node-1" (by decide) (by decide) (by decide)⟩

/-- C10 as stated fails: the type string `host=x,host` is none of the five types, the value
`v` contains neither `,` nor `=`, and yet `host=x,host=v` is valid (it reads as two
entries). -/
theorem agentIdentifiersAreValid_type_counterexample :
    ',' ∉ "v".data ∧ '=' ∉ "v".data ∧
      agentIdentifiersAreValid ("host=x,host" ++ "=" ++ "v") = true ∧
      ¬ ("host=x,host" = "host" ∨ "host=x,host" = "CIDR" ∨ "host=x,host" = "IPv4" ∨
          "host=x,host" = "IPv6" ∨ "host=x,host" = "UID") := by
  decide

end options

/-! ## The port forwarding table -/

namespace util

theorem mapGet_mapSet (m : StringMap) (k v k1 : String) :
    mapGet (mapSet m k v) k1 = if k = k1 then some v else mapGet m k1 := by
  induction m with
  | nil => simp [mapSet, mapGet]
  | cons b rest ih =>
    obtain ⟨kb, vb⟩ := b
    by_cases hb : kb = k
    · subst hb
      by_cases hk : kb = k1 <;> simp [mapSet, mapGet, hk]
    · by_cases hk : k = k1
      · subst hk
        simp [mapSet, mapGet, hb, ih]
      · simp [mapSet, mapGet, hb, ih, hk]

theorem mapKeys_mapSet (m : StringMap) (k v : String) :
    mapKeys (mapSet m k v) = if k ∈ mapKeys m then mapKeys m else mapKeys m ++ [k] := by
  induction m with
  | nil => simp [mapSet, mapKeys]
  | cons b rest ih =>
    obtain ⟨kb, vb⟩ := b
    by_cases hb : kb = k
    · subst hb
      simp [mapSet, mapKeys]
    · have hb2 : ¬ k = kb := fun e => hb e.symm
      simp only [mapKeys] at ih
      by_cases hmem : k ∈ List.map Prod.fst rest
      · simp [mapSet, mapKeys, hb, hb2, ih, hmem]
      · simp [mapSet, mapKeys, hb, hb2, ih, hmem]

theorem mapGet_eq_none_of_not_mem (m : StringMap) (k : String) (h : k ∉ mapKeys m) :
    mapGet m k = none := by
  induction m with
  | nil => rfl
  | cons b rest ih =>
    obtain ⟨kb, vb⟩ := b
    simp only [mapKeys, List.map_cons, List.mem_cons, not_or] at h
    have hb : ¬ kb = k := fun e => h.1 e.symm
    simp only [mapGet, hb, if_false]
    exact ih h.2

theorem addPort_consistent (t : Table) (port dst : String) (h : t.Consistent) :
    (addPort t port dst).Consistent := by
  obtain ⟨hk, hn⟩ := h
  unfold Table.Consistent addPort
  simp only [mapKeys_mapSet, hk]
  by_cases hmem : port ∈ t.ports
  · simp [hmem, hn]
  · simp only [hmem, if_false, true_and]
    exact List.Nodup.append hn (List.nodup_singleton port) (by simpa using hmem)

theorem mem_addPort_ports (t : Table) (port dst p : String) :
    p ∈ (addPort t port dst).ports ↔ p ∈ t.ports ∨ p = port := by
  unfold addPort
  by_cases hmem : port ∈ t.ports
  · simp only [hmem, if_true]
    constructor
    · intro h; exact Or.inl h
    · rintro (h | h)
      · exact h
      · rw [h]; exact hmem
  · simp [hmem]

theorem mapGet_addPort (t : Table) (port dst p : String) :
    mapGet (addPort t port dst).portMappings p =
      if port = p then some dst else mapGet t.portMappings p := by
  simp [addPort, mapGet_mapSet]

theorem addPorts_consistent (dst : String) (l : List String) (t : Table) (h : t.Consistent) :
    (addPorts dst l t).Consistent := by
  induction l generalizing t with
  | nil => exact h
  | cons port rest ih => exact ih _ (addPort_consistent t port dst h)

theorem mem_addPorts_ports (dst : String) (l : List String) (t : Table) (p : String) :
    p ∈ (addPorts dst l t).ports ↔ p ∈ t.ports ∨ p ∈ l := by
  induction l generalizing t with
  | nil => simp [addPorts]
  | cons port rest ih =>
    simp only [addPorts, ih, mem_addPort_ports, List.mem_cons]
    tauto

theorem mapGet_addPorts (dst : String) (l : List String) (t : Table) (p : String) :
    mapGet (addPorts dst l t).portMappings p =
      if p ∈ l then some dst else mapGet t.portMappings p := by
  induction l generalizing t with
  | nil => simp [addPorts]
  | cons port rest ih =>
    simp only [addPorts, ih, mapGet_addPort, List.mem_cons]
    by_cases h1 : p ∈ rest
    · simp [h1]
    · by_cases h2 : port = p
      · simp [h1, h2]
      · have h3 : ¬ p = port := fun e => h2 e.symm
        simp [h1, h2, h3]

theorem resolveDnatPairs_cons_pair (insecureAddr secureAddr pair srcPort targetPort : String)
    (rest : List String) (t : Table) (h : strings.Split pair '=' = [srcPort, targetPort]) :
    resolveDnatPairs insecureAddr secureAddr (pair :: rest) t =
      if targetMatches targetPort insecureAddr then
        resolveDnatPairs insecureAddr secureAddr rest (addPort t srcPort insecureAddr)
      else if targetMatches targetPort secureAddr then
        resolveDnatPairs insecureAddr secureAddr rest (addPort t srcPort secureAddr)
      else .error .UnresolvedTargetError := by
  rw [resolveDnatPairs]
  simp only [h]

theorem resolveDnatPairs_cons_malformed (insecureAddr secureAddr pair : String)
    (rest : List String) (t : Table) (h : (strings.Split pair '=').length ≠ 2) :
    resolveDnatPairs insecureAddr secureAddr (pair :: rest) t = .error .FormatError := by
  rw [resolveDnatPairs]
  split
  · rename_i heq
    exact absurd (by rw [heq]; rfl) h
  · rfl

theorem resolveDnatPairs_consistent (insecureAddr secureAddr : String) (l : List String)
    (t t1 : Table) (h : t.Consistent)
    (hr : resolveDnatPairs insecureAddr secureAddr l t = .ok t1) : t1.Consistent := by
  induction l generalizing t with
  | nil =>
    simp only [resolveDnatPairs, Except.ok.injEq] at hr
    exact hr ▸ h
  | cons pair rest ih =>
    by_cases hlen : (strings.Split pair '=').length = 2
    · obtain ⟨src, tgt, hp⟩ := List.length_eq_two.mp hlen
      rw [resolveDnatPairs_cons_pair _ _ _ _ _ _ _ hp] at hr
      by_cases h1 : targetMatches tgt insecureAddr = true
      · simp only [h1, if_true] at hr
        exact ih _ (addPort_consistent t src insecureAddr h) hr
      · by_cases h2 : targetMatches tgt secureAddr = true
        · simp only [h1, h2, if_true, if_false] at hr
          exact ih _ (addPort_consistent t src secureAddr h) hr
        · simp [h1, h2] at hr
    · rw [resolveDnatPairs_cons_malformed _ _ _ _ _ hlen] at hr
      cases hr

end util

namespace util

theorem empty_consistent : Table.Consistent { ports := [], portMappings := [] } :=
  ⟨rfl, List.nodup_nil⟩

theorem parsePort_isSome_digits (p : String) (h : (parsePort p).isSome = true) (c : Char)
    (hc : c.isDigit = false) : c ∉ p.data := by
  unfold parsePort at h
  split at h
  · rename_i hd
    intro hmem
    have := List.all_eq_true.mp hd.2 c hmem
    rw [hc] at this
    cases this
  · cases h

theorem targetMatches_of_portComponent (p addr : String) (hp : (parsePort p).isSome = true)
    (ha : portComponent addr = some p) : targetMatches p addr = true := by
  obtain ⟨n, hn⟩ := Option.isSome_iff_exists.mp hp
  simp [targetMatches, ha, hn]

theorem resolveDnatPairs_single (insecureAddr secureAddr s p : String) (t : Table)
    (hs : '=' ∉ s.data) (hp : '=' ∉ p.data) :
    resolveDnatPairs insecureAddr secureAddr [s ++ "=" ++ p] t =
      if targetMatches p insecureAddr then .ok (addPort t s insecureAddr)
      else if targetMatches p secureAddr then .ok (addPort t s secureAddr)
      else .error .UnresolvedTargetError := by
  have hsplit : strings.Split (s ++ "=" ++ p) '=' = [s, p] := by
    rw [show ("=" : String) = String.singleton '=' from rfl, strings.Split_append_sep,
      strings.Split_of_not_mem s '=' hs, strings.Split_of_not_mem p '=' hp]
    rfl
  rw [resolveDnatPairs_cons_pair _ _ _ _ _ _ _ hsplit]
  simp only [resolveDnatPairs]

/-- C2, amended. For every source-port string `s` containing neither `,` nor `=` and every
decimal port number `p`, resolving a record whose only port key is `dnat-ports-pair` with
value `s=p` succeeds with `ports = [s]` and `portMappings = {s: insecureAddr}` when `p` is
the port component of `insecureAddr`, and with `portMappings = {s: secureAddr}` when `p` is
the port component of `secureAddr` and does not numerically equal the port of
`insecureAddr`. -/
theorem resolve_dnat_single_pair (cm : StringMap) (s p insecureAddr secureAddr : String)
    (hd : mapGet cm dnatPortsPairKey = some (s ++ "=" ++ p))
    (hh : mapGet cm httpProxyPortsKey = none) (hhs : mapGet cm httpsProxyPortsKey = none)
    (hs1 : ',' ∉ s.data) (hs2 : '=' ∉ s.data) (hp : (parsePort p).isSome = true) :
    (portComponent insecureAddr = some p →
      resolveProxyPortsAndMappings cm insecureAddr secureAddr =
        ([s], [(s, insecureAddr)], none)) ∧
    (portComponent secureAddr = some p → targetMatches p insecureAddr = false →
      resolveProxyPortsAndMappings cm insecureAddr secureAddr =
        ([s], [(s, secureAddr)], none)) := by
  have hp1 : ',' ∉ p.data := parsePort_isSome_digits p hp ',' (by decide)
  have hp2 : '=' ∉ p.data := parsePort_isSome_digits p hp '=' (by decide)
  have hcomma : ',' ∉ (s ++ "=" ++ p).data := by
    simp only [String.data_append, List.mem_append, not_or]
    exact ⟨⟨hs1, by decide⟩, hp1⟩
  have hsplit := strings.Split_of_not_mem _ ',' hcomma
  constructor
  · intro ha
    have hm := targetMatches_of_portComponent p insecureAddr hp ha
    simp [resolveProxyPortsAndMappings, hd, hh, hhs, hsplit,
      resolveDnatPairs_single _ _ s p _ hs2 hp2, hm, addPort, mapSet]
  · intro ha hni
    have hm := targetMatches_of_portComponent p secureAddr hp ha
    simp [resolveProxyPortsAndMappings, hd, hh, hhs, hsplit,
      resolveDnatPairs_single _ _ s p _ hs2 hp2, hm, hni, addPort, mapSet]

/-- C2, amended, at the record of the test case: `9100=10264` against the listeners
`1.1.1.1:10264` and `1.1.1.1:10263` gives the port `9100` mapped to `1.1.1.1:10264`. -/
theorem resolve_dnat_single_pair_witness :
    portComponent "1.1.1.1:10264" = some "10264" ∧
    resolveProxyPortsAndMappings [("dnat-ports-pair", "9100" ++ "=" ++ "10264")]
      "1.1.1.1:10264" "1.1.1.1:10263" = (["9100"], [("9100", "1.1.1.1:10264")], none) :=
  ⟨by decide,
    (resolve_dnat_single_pair [("dnat-ports-pair", "9100" ++ "=" ++ "10264")] "9100" "10264"
      "1.1.1.1:10264" "1.1.1.1:10263" (by decide) (by decide) (by decide) (by decide)
      (by decide) (by decide)).1 (by decide)⟩

/-- C2 as stated fails. When `10264` is the port component of both listeners, the claim
asks for `9100` mapped to `secureAddr` as well, and the table maps it to `insecureAddr`;
and when the port component of `insecureAddr` is no number (`http`), no target numerically
equals it and the resolver fails. -/
theorem resolve_dnat_single_pair_counterexample :
    (portComponent "2.2.2.2:10264" = some "10264" ∧
      resolveProxyPortsAndMappings [("dnat-ports-pair", "9100" ++ "=" ++ "10264")]
        "1.1.1.1:10264" "2.2.2.2:10264" ≠ (["9100"], [("9100", "2.2.2.2:10264")], none)) ∧
    (portComponent "1.1.1.1:http" = some "http" ∧
      resolveProxyPortsAndMappings [("dnat-ports-pair", "9100" ++ "=" ++ "http")]
        "1.1.1.1:http" "1.1.1.1:10263" ≠ (["9100"], [("9100", "1.1.1.1:http")], none)) := by
  decide

end util

namespace util

theorem resolve_of_no_dnat (cm : StringMap) (insecureAddr secureAddr : String)
    (hd : mapGet cm dnatPortsPairKey = none) :
    resolveProxyPortsAndMappings cm insecureAddr secureAddr =
      ((match mapGet cm httpsProxyPortsKey with
        | some v => addPorts secureAddr (strings.Split v ',')
            (match mapGet cm httpProxyPortsKey with
              | some v => addPorts insecureAddr (strings.Split v ',')
                  { ports := [], portMappings := [] }
              | none => { ports := [], portMappings := [] })
        | none =>
            (match mapGet cm httpProxyPortsKey with
              | some v => addPorts insecureAddr (strings.Split v ',')
                  { ports := [], portMappings := [] }
              | none => { ports := [], portMappings := [] })).ports,
       (match mapGet cm httpsProxyPortsKey with
        | some v => addPorts secureAddr (strings.Split v ',')
            (match mapGet cm httpProxyPortsKey with
              | some v => addPorts insecureAddr (strings.Split v ',')
                  { ports := [], portMappings := [] }
              | none => { ports := [], portMappings := [] })
        | none =>
            (match mapGet cm httpProxyPortsKey with
              | some v => addPorts insecureAddr (strings.Split v ',')
                  { ports := [], portMappings := [] }
              | none => { ports := [], portMappings := [] })).portMappings,
       none) := by
  simp only [resolveProxyPortsAndMappings, hd]

theorem mem_of_mem_mapKeys_addPorts (dst : String) (l : List String) (p : String)
    (h : p ∈ mapKeys (addPorts dst l { ports := [], portMappings := [] }).portMappings) :
    p ∈ l := by
  rw [(addPorts_consistent dst l _ empty_consistent).1, mem_addPorts_ports] at h
  simpa using h

/-- C3. For every record whose only port key is `http-proxy-ports`, with a comma-separated
list of ports, the resolver succeeds, the returned ports are exactly the listed ports, and
`portMappings` maps every listed port to `insecureAddr` and has no other key. -/
theorem resolve_http_proxy_ports (cm : StringMap) (v insecureAddr secureAddr : String)
    (hd : mapGet cm dnatPortsPairKey = none) (hh : mapGet cm httpProxyPortsKey = some v)
    (hhs : mapGet cm httpsProxyPortsKey = none) :
    (resolveProxyPortsAndMappings cm insecureAddr secureAddr).2.2 = none ∧
    (∀ p, p ∈ (resolveProxyPortsAndMappings cm insecureAddr secureAddr).1 ↔
      p ∈ strings.Split v ',') ∧
    (∀ p ∈ strings.Split v ',',
      mapGet (resolveProxyPortsAndMappings cm insecureAddr secureAddr).2.1 p =
        some insecureAddr) ∧
    (∀ p ∈ mapKeys (resolveProxyPortsAndMappings cm insecureAddr secureAddr).2.1,
      p ∈ strings.Split v ',') := by
  rw [resolve_of_no_dnat cm insecureAddr secureAddr hd]
  simp only [hh, hhs]
  refine ⟨trivial, ?_, ?_, ?_⟩
  · intro p
    simp [mem_addPorts_ports]
  · intro p hp
    simp [mapGet_addPorts, hp]
  · intro p hp
    exact mem_of_mem_mapKeys_addPorts _ _ p hp

/-- C3 at the record of the test case: `9100,9200` gives both ports mapped to
`1.1.1.1:10264`. -/
theorem resolve_http_proxy_ports_witness :
    resolveProxyPortsAndMappings [("http-proxy-ports", "9100,9200")]
      "1.1.1.1:10264" "1.1.1.1:10263" =
        (["9100", "9200"], [("9100", "1.1.1.1:10264"), ("9200", "1.1.1.1:10264")], none) ∧
    (∀ p ∈ strings.Split "9100,9200" ',',
      mapGet (resolveProxyPortsAndMappings [("http-proxy-ports", "9100,9200")]
        "1.1.1.1:10264" "1.1.1.1:10263").2.1 p = some "1.1.1.1:10264") :=
  ⟨by decide,
    (resolve_http_proxy_ports [("http-proxy-ports", "9100,9200")] "9100,9200"
      "1.1.1.1:10264" "1.1.1.1:10263" (by decide) (by decide) (by decide)).2.2.1⟩

/-- C4. For every record whose only port key is `https-proxy-ports`, with a comma-separated
list of ports, the resolver succeeds, the returned ports are exactly the listed ports, and
`portMappings` maps every listed port to `secureAddr` and has no other key. -/
theorem resolve_https_proxy_ports (cm : StringMap) (v insecureAddr secureAddr : String)
    (hd : mapGet cm dnatPortsPairKey = none) (hh : mapGet cm httpProxyPortsKey = none)
    (hhs : mapGet cm httpsProxyPortsKey = some v) :
    (resolveProxyPortsAndMappings cm insecureAddr secureAddr).2.2 = none ∧
    (∀ p, p ∈ (resolveProxyPortsAndMappings cm insecureAddr secureAddr).1 ↔
      p ∈ strings.Split v ',') ∧
    (∀ p ∈ strings.Split v ',',
      mapGet (resolveProxyPortsAndMappings cm insecureAddr secureAddr).2.1 p =
        some secureAddr) ∧
    (∀ p ∈ mapKeys (resolveProxyPortsAndMappings cm insecureAddr secureAddr).2.1,
      p ∈ strings.Split v ',') := by
  rw [resolve_of_no_dnat cm insecureAddr secureAddr hd]
  simp only [hh, hhs]
  refine ⟨trivial, ?_, ?_, ?_⟩
  · intro p
    simp [mem_addPorts_ports]
  · intro p hp
    simp [mapGet_addPorts, hp]
  · intro p hp
    exact mem_of_mem_mapKeys_addPorts _ _ p hp

/-- C4 at the record of the test case: `9100,9200` gives both ports mapped to
`1.1.1.1:10263`. -/
theorem resolve_https_proxy_ports_witness :
    resolveProxyPortsAndMappings [("https-proxy-ports", "9100,9200")]
      "1.1.1.1:10264" "1.1.1.1:10263" =
        (["9100", "9200"], [("9100", "1.1.1.1:10263"), ("9200", "1.1.1.1:10263")], none) ∧
    (∀ p ∈ strings.Split "9100,9200" ',',
      mapGet (resolveProxyPortsAndMappings [("https-proxy-ports", "9100,9200")]
        "1.1.1.1:10264" "1.1.1.1:10263").2.1 p = some "1.1.1.1:10263") :=
  ⟨by decide,
    (resolve_https_proxy_ports [("https-proxy-ports", "9100,9200")] "9100,9200"
      "1.1.1.1:10264" "1.1.1.1:10263" (by decide) (by decide) (by decide)).2.2.1⟩

/-- C5. For every record that has both `http-proxy-ports` and `https-proxy-ports` with
disjoint port lists and no `dnat-ports-pair`, the resolver succeeds, the returned ports are
the union of the two lists, every http port is mapped to `insecureAddr` and every https port
to `secureAddr`, and `portMappings` has no other key. -/
theorem resolve_http_and_https_proxy_ports (cm : StringMap)
    (vh vs insecureAddr secureAddr : String)
    (hd : mapGet cm dnatPortsPairKey = none) (hh : mapGet cm httpProxyPortsKey = some vh)
    (hhs : mapGet cm httpsProxyPortsKey = some vs)
    (hdisj : ∀ p ∈ strings.Split vh ',', p ∉ strings.Split vs ',') :
    (resolveProxyPortsAndMappings cm insecureAddr secureAddr).2.2 = none ∧
    (∀ p, p ∈ (resolveProxyPortsAndMappings cm insecureAddr secureAddr).1 ↔
      (p ∈ strings.Split vh ',' ∨ p ∈ strings.Split vs ',')) ∧
    (∀ p ∈ strings.Split vh ',',
      mapGet (resolveProxyPortsAndMappings cm insecureAddr secureAddr).2.1 p =
        some insecureAddr) ∧
    (∀ p ∈ strings.Split vs ',',
      mapGet (resolveProxyPortsAndMappings cm insecureAddr secureAddr).2.1 p =
        some secureAddr) ∧
    (∀ p ∈ mapKeys (resolveProxyPortsAndMappings cm insecureAddr secureAddr).2.1,
      (p ∈ strings.Split vh ',' ∨ p ∈ strings.Split vs ',')) := by
  rw [resolve_of_no_dnat cm insecureAddr secureAddr hd]
  simp only [hh, hhs]
  have hmem : ∀ p, p ∈ (addPorts secureAddr (strings.Split vs ',')
      (addPorts insecureAddr (strings.Split vh ',')
        { ports := [], portMappings := [] })).ports ↔
      (p ∈ strings.Split vh ',' ∨ p ∈ strings.Split vs ',') := by
    intro p
    simp [mem_addPorts_ports]
  refine ⟨trivial, hmem, ?_, ?_, ?_⟩
  · intro p hp
    simp [mapGet_addPorts, hp, hdisj p hp]
  · intro p hp
    simp [mapGet_addPorts, hp]
  · intro p hp
    rw [(addPorts_consistent secureAddr _ _
      (addPorts_consistent insecureAddr _ _ empty_consistent)).1] at hp
    exact (hmem p).mp hp

/-- C5 at the record of the test case: http `9100,9200` and https `9300,9400` give four
ports with their respective destinations. -/
theorem resolve_http_and_https_proxy_ports_witness :
    resolveProxyPortsAndMappings
      [("http-proxy-ports", "9100,9200"), ("https-proxy-ports", "9300,9400")]
      "1.1.1.1:10264" "1.1.1.1:10263" =
        (["9100", "9200", "9300", "9400"],
          [("9100", "1.1.1.1:10264"), ("9200", "1.1.1.1:10264"),
            ("9300", "1.1.1.1:10263"), ("9400", "1.1.1.1:10263")], none) ∧
    (∀ p ∈ strings.Split "9300,9400" ',',
      mapGet (resolveProxyPortsAndMappings
        [("http-proxy-ports", "9100,9200"), ("https-proxy-ports", "9300,9400")]
        "1.1.1.1:10264" "1.1.1.1:10263").2.1 p = some "1.1.1.1:10263") :=
  ⟨by decide,
    (resolve_http_and_https_proxy_ports
      [("http-proxy-ports", "9100,9200"), ("https-proxy-ports", "9300,9400")]
      "9100,9200" "9300,9400" "1.1.1.1:10264" "1.1.1.1:10263"
      (by decide) (by decide) (by decide) (by decide)).2.2.2.1⟩

end util

namespace util

theorem resolveDnatPairs_unresolved (insecureAddr secureAddr : String)
    (pre post : List String) (e src tgt : String) (t : Table)
    (hp : strings.Split e '=' = [src, tgt])
    (h1 : targetMatches tgt insecureAddr = false) (h2 : targetMatches tgt secureAddr = false) :
    ∃ err, resolveDnatPairs insecureAddr secureAddr (pre ++ e :: post) t = .error err ∧
      ((∀ e1 ∈ pre, (strings.Split e1 '=').length = 2) →
        err = ResolveError.UnresolvedTargetError) := by
  induction pre generalizing t with
  | nil =>
    refine ⟨.UnresolvedTargetError, ?_, fun _ => rfl⟩
    rw [List.nil_append, resolveDnatPairs_cons_pair _ _ _ _ _ _ _ hp]
    simp [h1, h2]
  | cons pair rest ih =>
    by_cases hlen : (strings.Split pair '=').length = 2
    · obtain ⟨s1, t1, hp1⟩ := List.length_eq_two.mp hlen
      rw [List.cons_append, resolveDnatPairs_cons_pair _ _ _ _ _ _ _ hp1]
      by_cases hm1 : targetMatches t1 insecureAddr = true
      · obtain ⟨err, he, hk⟩ := ih (addPort t s1 insecureAddr)
        refine ⟨err, ?_, fun hall => hk (fun e1 h => hall e1 (List.mem_cons_of_mem _ h))⟩
        simp only [hm1, if_true]
        exact he
      · by_cases hm2 : targetMatches t1 secureAddr = true
        · obtain ⟨err, he, hk⟩ := ih (addPort t s1 secureAddr)
          refine ⟨err, ?_, fun hall => hk (fun e1 h => hall e1 (List.mem_cons_of_mem _ h))⟩
          simp only [hm1, hm2, if_true, if_false]
          exact he
        · refine ⟨.UnresolvedTargetError, ?_, fun _ => rfl⟩
          simp [hm1, hm2]
    · refine ⟨.FormatError, ?_, fun hall => absurd (hall pair (List.mem_cons_self _ _)) hlen⟩
      rw [List.cons_append, resolveDnatPairs_cons_malformed _ _ _ _ _ hlen]

theorem resolveDnatPairs_malformed (insecureAddr secureAddr : String)
    (pre post : List String) (e : String) (t : Table)
    (hlen : (strings.Split e '=').length ≠ 2) :
    ∃ err, resolveDnatPairs insecureAddr secureAddr (pre ++ e :: post) t = .error err ∧
      ((∀ e1 ∈ pre, ∀ src tgt, strings.Split e1 '=' = [src, tgt] →
          targetMatches tgt insecureAddr = true ∨ targetMatches tgt secureAddr = true) →
        err = ResolveError.FormatError) := by
  induction pre generalizing t with
  | nil =>
    refine ⟨.FormatError, ?_, fun _ => rfl⟩
    rw [List.nil_append, resolveDnatPairs_cons_malformed _ _ _ _ _ hlen]
  | cons pair rest ih =>
    by_cases hlen1 : (strings.Split pair '=').length = 2
    · obtain ⟨s1, t1, hp1⟩ := List.length_eq_two.mp hlen1
      rw [List.cons_append, resolveDnatPairs_cons_pair _ _ _ _ _ _ _ hp1]
      by_cases hm1 : targetMatches t1 insecureAddr = true
      · obtain ⟨err, he, hk⟩ := ih (addPort t s1 insecureAddr)
        refine ⟨err, ?_, fun hall =>
          hk (fun e1 h => hall e1 (List.mem_cons_of_mem _ h))⟩
        simp only [hm1, if_true]
        exact he
      · by_cases hm2 : targetMatches t1 secureAddr = true
        · obtain ⟨err, he, hk⟩ := ih (addPort t s1 secureAddr)
          refine ⟨err, ?_, fun hall =>
            hk (fun e1 h => hall e1 (List.mem_cons_of_mem _ h))⟩
          simp only [hm1, hm2, if_true, if_false]
          exact he
        · refine ⟨.UnresolvedTargetError, ?_, fun hall => ?_⟩
          · simp [hm1, hm2]
          · rcases hall pair (List.mem_cons_self _ _) s1 t1 hp1 with h | h
            · exact absurd h hm1
            · exact absurd h hm2
    · refine ⟨.FormatError, ?_, fun _ => rfl⟩
      rw [List.cons_append, resolveDnatPairs_cons_malformed _ _ _ _ _ hlen1]

theorem resolve_of_dnat_error (cm : StringMap) (insecureAddr secureAddr v : String)
    (err : ResolveError) (hd : mapGet cm dnatPortsPairKey = some v)
    (he : resolveDnatPairs insecureAddr secureAddr (strings.Split v ',')
      { ports := [], portMappings := [] } = .error err) :
    resolveProxyPortsAndMappings cm insecureAddr secureAddr = ([], [], some err) := by
  simp only [resolveProxyPortsAndMappings, hd, he]

/-- C6, amended. For every record and every pair of listener addresses, if an entry of the
`dnat-ports-pair` list is a well-formed pair `src=target` whose target port numerically
equals neither the port of `insecureAddr` nor the port of `secureAddr`, the resolver
returns an error and no table, so it never succeeds with that source port left out; the
error is UnresolvedTargetError when no malformed entry precedes the pair in the list. -/
theorem resolve_unresolved_target (cm : StringMap) (insecureAddr secureAddr v : String)
    (pre post : List String) (e src tgt : String)
    (hd : mapGet cm dnatPortsPairKey = some v)
    (hv : strings.Split v ',' = pre ++ e :: post)
    (hp : strings.Split e '=' = [src, tgt])
    (h1 : targetMatches tgt insecureAddr = false) (h2 : targetMatches tgt secureAddr = false) :
    ∃ err, resolveProxyPortsAndMappings cm insecureAddr secureAddr = ([], [], some err) ∧
      ((∀ e1 ∈ pre, (strings.Split e1 '=').length = 2) →
        err = ResolveError.UnresolvedTargetError) := by
  obtain ⟨err, he, hk⟩ := resolveDnatPairs_unresolved insecureAddr secureAddr pre post e src
    tgt { ports := [], portMappings := [] } hp h1 h2
  rw [← hv] at he
  exact ⟨err, resolve_of_dnat_error cm insecureAddr secureAddr v err hd he, hk⟩

/-- C6, amended, at a record whose second pair `9200=999` matches neither listener, next to
a resolvable first pair and a well-formed `http-proxy-ports` list. -/
theorem resolve_unresolved_target_witness :
    resolveProxyPortsAndMappings
      [("dnat-ports-pair", "9100=10264,9200=999"), ("http-proxy-ports", "9300")]
      "1.1.1.1:10264" "1.1.1.1:10263" = ([], [], some ResolveError.UnresolvedTargetError) ∧
    ∃ err, resolveProxyPortsAndMappings
      [("dnat-ports-pair", "9100=10264,9200=999"), ("http-proxy-ports", "9300")]
      "1.1.1.1:10264" "1.1.1.1:10263" = ([], [], some err) ∧
      ((∀ e1 ∈ ["9100=10264"], (strings.Split e1 '=').length = 2) →
        err = ResolveError.UnresolvedTargetError) :=
  ⟨by decide,
    resolve_unresolved_target
      [("dnat-ports-pair", "9100=10264,9200=999"), ("http-proxy-ports", "9300")]
      "1.1.1.1:10264" "1.1.1.1:10263" "9100=10264,9200=999" ["9100=10264"] [] "9200=999"
      "9200" "999" (by decide) (by decide) (by decide) (by decide) (by decide)⟩

/-- C6 as stated fails on the kind of the error: the pair `9100=999` is well formed and
its target matches neither listener, but the malformed entry before it makes the resolver
fail with FormatError. -/
theorem resolve_unresolved_target_counterexample :
    "9100=999" ∈ strings.Split "a=1=2,9100=999" ',' ∧
    strings.Split "9100=999" '=' = ["9100", "999"] ∧
    targetMatches "999" "1.1.1.1:10264" = false ∧
    targetMatches "999" "1.1.1.1:10263" = false ∧
    (resolveProxyPortsAndMappings [("dnat-ports-pair", "a=1=2,9100=999")]
      "1.1.1.1:10264" "1.1.1.1:10263").2.2 ≠ some ResolveError.UnresolvedTargetError := by
  decide

/-- C7, amended. For every record whose `dnat-ports-pair` value contains an entry that does
not split on `=` into exactly 2 parts, the resolver returns an error and no partial table:
the returned ports and portMappings carry no entries, whatever the other entries and the
`http-proxy-ports` and `https-proxy-ports` keys are; the error is FormatError when no earlier
entry of the list is a well-formed pair whose target matches neither listener. -/
theorem resolve_malformed_pair (cm : StringMap) (insecureAddr secureAddr v : String)
    (pre post : List String) (e : String)
    (hd : mapGet cm dnatPortsPairKey = some v)
    (hv : strings.Split v ',' = pre ++ e :: post)
    (hlen : (strings.Split e '=').length ≠ 2) :
    ∃ err, resolveProxyPortsAndMappings cm insecureAddr secureAddr = ([], [], some err) ∧
      ((∀ e1 ∈ pre, ∀ src tgt, strings.Split e1 '=' = [src, tgt] →
          targetMatches tgt insecureAddr = true ∨ targetMatches tgt secureAddr = true) →
        err = ResolveError.FormatError) := by
  obtain ⟨err, he, hk⟩ := resolveDnatPairs_malformed insecureAddr secureAddr pre post e
    { ports := [], portMappings := [] } hlen
  rw [← hv] at he
  exact ⟨err, resolve_of_dnat_error cm insecureAddr secureAddr v err hd he, hk⟩

/-- C7, amended, at a record whose second entry `9200` has no `=`, next to a resolvable
first pair and well-formed `http-proxy-ports` and `https-proxy-ports` lists. -/
theorem resolve_malformed_pair_witness :
    resolveProxyPortsAndMappings
      [("dnat-ports-pair", "9100=10264,9200"), ("http-proxy-ports", "9300"),
        ("https-proxy-ports", "9400")]
      "1.1.1.1:10264" "1.1.1.1:10263" = ([], [], some ResolveError.FormatError) ∧
    ∃ err, resolveProxyPortsAndMappings
      [("dnat-ports-pair", "9100=10264,9200"), ("http-proxy-ports", "9300"),
        ("https-proxy-ports", "9400")]
      "1.1.1.1:10264" "1.1.1.1:10263" = ([], [], some err) ∧
      ((∀ e1 ∈ ["9100=10264"], ∀ src tgt, strings.Split e1 '=' = [src, tgt] →
          targetMatches tgt "1.1.1.1:10264" = true ∨
            targetMatches tgt "1.1.1.1:10263" = true) →
        err = ResolveError.FormatError) :=
  ⟨by decide,
    resolve_malformed_pair
      [("dnat-ports-pair", "9100=10264,9200"), ("http-proxy-ports", "9300"),
        ("https-proxy-ports", "9400")]
      "1.1.1.1:10264" "1.1.1.1:10263" "9100=10264,9200" ["9100=10264"] [] "9200"
      (by decide) (by decide) (by decide)⟩

/-- C7 as stated fails on the kind of the error: the entry `a=1=2` does not split into 2
parts, but the pair before it has a target that matches neither listener and makes the
resolver fail with UnresolvedTargetError. -/
theorem resolve_malformed_pair_counterexample :
    "a=1=2" ∈ strings.Split "9100=999,a=1=2" ',' ∧
    (strings.Split "a=1=2" '=').length ≠ 2 ∧
    (resolveProxyPortsAndMappings [("dnat-ports-pair", "9100=999,a=1=2")]
      "1.1.1.1:10264" "1.1.1.1:10263").2.2 ≠ some ResolveError.FormatError := by
  decide

/-- C8. For every record and listener addresses on which the resolver succeeds, the
returned table is consistent: `ports` has no duplicate element, `portMappings` has as many
entries as `ports`, its keys are pairwise distinct, and its key set is exactly the set of
elements of `ports`. -/
theorem resolve_table_consistent (cm : StringMap) (insecureAddr secureAddr : String)
    (hok : (resolveProxyPortsAndMappings cm insecureAddr secureAddr).2.2 = none) :
    (resolveProxyPortsAndMappings cm insecureAddr secureAddr).1.Nodup ∧
    (resolveProxyPortsAndMappings cm insecureAddr secureAddr).2.1.length =
      (resolveProxyPortsAndMappings cm insecureAddr secureAddr).1.length ∧
    (mapKeys (resolveProxyPortsAndMappings cm insecureAddr secureAddr).2.1).Nodup ∧
    (∀ p, p ∈ mapKeys (resolveProxyPortsAndMappings cm insecureAddr secureAddr).2.1 ↔
      p ∈ (resolveProxyPortsAndMappings cm insecureAddr secureAddr).1) := by
  have key : ∃ t : Table, t.Consistent ∧
      resolveProxyPortsAndMappings cm insecureAddr secureAddr =
        (t.ports, t.portMappings, none) := by
    have hstep : ∀ t1 : Table, t1.Consistent →
        ∃ t : Table, t.Consistent ∧
          ((match mapGet cm httpsProxyPortsKey with
            | some v => addPorts secureAddr (strings.Split v ',')
                (match mapGet cm httpProxyPortsKey with
                  | some v => addPorts insecureAddr (strings.Split v ',') t1
                  | none => t1)
            | none =>
                (match mapGet cm httpProxyPortsKey with
                  | some v => addPorts insecureAddr (strings.Split v ',') t1
                  | none => t1)) = t) := by
      intro t1 h1
      refine ⟨_, ?_, rfl⟩
      cases mapGet cm httpsProxyPortsKey <;> cases mapGet cm httpProxyPortsKey <;>
        simp only [] <;>
        first
          | exact h1
          | exact addPorts_consistent _ _ _ h1
          | exact addPorts_consistent _ _ _ (addPorts_consistent _ _ _ h1)
    unfold resolveProxyPortsAndMappings at hok ⊢
    cases hd : mapGet cm dnatPortsPairKey with
    | none =>
      obtain ⟨t, ht, heq⟩ := hstep _ empty_consistent
      exact ⟨t, ht, by simp only [heq]⟩
    | some v =>
      rw [hd] at hok
      cases hr : resolveDnatPairs insecureAddr secureAddr (strings.Split v ',')
          { ports := [], portMappings := [] } with
      | error err =>
        simp only [hr] at hok
        cases hok
      | ok t1 =>
        obtain ⟨t, ht, heq⟩ := hstep t1
          (resolveDnatPairs_consistent _ _ _ _ t1 empty_consistent hr)
        exact ⟨t, ht, by simp only [hr, heq]⟩
  obtain ⟨t, ⟨hk, hn⟩, heq⟩ := key
  rw [heq]
  refine ⟨hn, ?_, ?_, ?_⟩
  · show t.portMappings.length = t.ports.length
    rw [← hk, mapKeys, List.length_map]
  · show (mapKeys t.portMappings).Nodup
    rw [hk]; exact hn
  · intro p
    show p ∈ mapKeys t.portMappings ↔ p ∈ t.ports
    rw [hk]

/-- C8 at a record that repeats the port `9100` inside one list and under all three keys,
and `9200` under two keys. -/
theorem resolve_table_consistent_witness :
    resolveProxyPortsAndMappings
      [("dnat-ports-pair", "9100=10264,9100=10263"), ("http-proxy-ports", "9100,9200,9100"),
        ("https-proxy-ports", "9200,9100")]
      "1.1.1.1:10264" "1.1.1.1:10263" =
        (["9100", "9200"], [("9100", "1.1.1.1:10263"), ("9200", "1.1.1.1:10263")], none) ∧
    (resolveProxyPortsAndMappings
      [("dnat-ports-pair", "9100=10264,9100=10263"), ("http-proxy-ports", "9100,9200,9100"),
        ("https-proxy-ports", "9200,9100")]
      "1.1.1.1:10264" "1.1.1.1:10263").1.Nodup :=
  ⟨by decide,
    (resolve_table_consistent
      [("dnat-ports-pair", "9100=10264,9100=10263"), ("http-proxy-ports", "9100,9200,9100"),
        ("https-proxy-ports", "9200,9100")]
      "1.1.1.1:10264" "1.1.1.1:10263" (by decide)).1⟩

end util

/-! ## Empty entries and comma-joining -/

namespace options

theorem entryIsValid_empty : ¬ entryIsValid "" := by
  rintro ⟨t, v, hp, _⟩
  have h : strings.Split "" '=' = [""] := by decide
  rw [h] at hp
  simp at hp

theorem entriesAreValid_of_mem_empty (entries : List String) (h : "" ∈ entries) :
    entriesAreValid entries = false := by
  rw [← Bool.not_eq_true, entriesAreValid_iff]
  intro hall
  exact entryIsValid_empty (hall "" h)

theorem Split_empty (sep : Char) : strings.Split "" sep = [""] := by
  simp [strings.Split, strings.splitChars]

theorem agentIdentifiersAreValid_append_sep (a b : String) :
    agentIdentifiersAreValid (a ++ String.singleton ',' ++ b) =
      entriesAreValid (strings.Split a ',' ++ strings.Split b ',') := by
  rw [agentIdentifiersAreValid_of_ne_empty _ (append_sep_ne_empty a b ','),
    strings.Split_append_sep]

/-- C11. An identifiers string with an empty entry is invalid: `agentIdentifiersAreValid`
returns false for `s ++ ","` (trailing comma), for `"," ++ s` (leading comma) and for every
string `a ++ ",," ++ b` containing two commas in a row. -/
theorem agentIdentifiersAreValid_empty_entry (s a b : String) :
    agentIdentifiersAreValid (s ++ ",") = false ∧
    agentIdentifiersAreValid ("," ++ s) = false ∧
    agentIdentifiersAreValid (a ++ ",," ++ b) = false := by
  have h1 : s ++ "," = s ++ String.singleton ',' ++ "" := by
    apply String.ext; simp [String.singleton]
  have h2 : "," ++ s = "" ++ String.singleton ',' ++ s := by
    apply String.ext; simp [String.singleton]
  have h3 : a ++ ",," ++ b = a ++ String.singleton ',' ++ (String.singleton ',' ++ b) := by
    apply String.ext; simp [String.singleton]
  have h4 : String.singleton ',' ++ b = "" ++ String.singleton ',' ++ b := by
    apply String.ext; simp [String.singleton]
  refine ⟨?_, ?_, ?_⟩
  · rw [h1, agentIdentifiersAreValid_append_sep, Split_empty]
    exact entriesAreValid_of_mem_empty _ (by simp)
  · rw [h2, agentIdentifiersAreValid_append_sep, Split_empty]
    exact entriesAreValid_of_mem_empty _ (by simp)
  · rw [h3, agentIdentifiersAreValid_append_sep, h4, strings.Split_append_sep, Split_empty]
    exact entriesAreValid_of_mem_empty _ (by simp)

/-- C17. For all non-empty strings `a` and `b`, `agentIdentifiersAreValid (a ++ "," ++ b)`
is the conjunction of `agentIdentifiersAreValid a` and `agentIdentifiersAreValid b`. -/
theorem agentIdentifiersAreValid_comma_join (a b : String) (ha : a ≠ "") (hb : b ≠ "") :
    agentIdentifiersAreValid (a ++ "," ++ b) =
      (agentIdentifiersAreValid a && agentIdentifiersAreValid b) := by
  rw [show ("," : String) = String.singleton ',' from rfl, agentIdentifiersAreValid_append_sep,
    entriesAreValid_append, agentIdentifiersAreValid_of_ne_empty a ha,
    agentIdentifiersAreValid_of_ne_empty b hb]

/-- C17 at `host=a` and `Host=b`: the second half is invalid, and so is the joined string. -/
theorem agentIdentifiersAreValid_comma_join_witness :
    "host=a" ≠ "" ∧ "Host=b" ≠ "" ∧ agentIdentifiersAreValid "host=a" = true ∧
      agentIdentifiersAreValid "Host=b" = false ∧
      agentIdentifiersAreValid ("host=a" ++ "," ++ "Host=b") =
        (agentIdentifiersAreValid "host=a" && agentIdentifiersAreValid "Host=b") :=
  ⟨by decide, by decide, by decide, by decide,
    agentIdentifiersAreValid_comma_join "host=a" "Host=b" (by decide) (by decide)⟩

end options

/-! ## Validate and Config -/

namespace options

theorem validateAgentIdentifiers_fst (o : AgentOptions) :
    (validateAgentIdentifiers o).1 = o := by
  unfold validateAgentIdentifiers
  split <;> rfl

theorem validateAgentIdentifiers_snd (o : AgentOptions) :
    (validateAgentIdentifiers o).2 = none ↔
      agentIdentifiersAreValid o.AgentIdentifiers = true := by
  unfold validateAgentIdentifiers
  cases h : agentIdentifiersAreValid o.AgentIdentifiers <;> simp

theorem validateNodeIP_snd (o : AgentOptions) (getenv : String → String) :
    (validateNodeIP o getenv).2 = none ↔
      ((o.NodeIP ≠ "" ∨ getenv "NODE_IP" ≠ "") ∧
        agentIdentifiersAreValid o.AgentIdentifiers = true) := by
  unfold validateNodeIP
  by_cases h1 : o.NodeIP = ""
  · by_cases h2 : getenv "NODE_IP" = ""
    · simp [h1, h2]
    · simp [h1, h2, validateAgentIdentifiers_snd]
  · simp [h1, validateAgentIdentifiers_snd]

theorem validateNodeIP_frame (o : AgentOptions) (getenv : String → String) :
    (validateNodeIP o getenv).1 = o ∨
      (o.NodeIP = "" ∧ (validateNodeIP o getenv).1 = { o with NodeIP := getenv "NODE_IP" }) := by
  unfold validateNodeIP
  by_cases h1 : o.NodeIP = ""
  · by_cases h2 : getenv "NODE_IP" = ""
    · right
      simp [h1, h2]
    · right
      simp [h1, h2, validateAgentIdentifiers_fst]
  · left
    simp [h1, validateAgentIdentifiers_fst]

/-- C12. With the environment as an explicit input, `Validate` returns nil if and only if
the node name is non-empty in the flag or in `$NODE_NAME`, the node IP is non-empty in the
flag or in `$NODE_IP`, and the identifiers string is valid. -/
theorem Validate_eq_nil_iff (o : AgentOptions) (getenv : String → String) :
    (o.Validate getenv).2 = none ↔
      ((o.NodeName ≠ "" ∨ getenv "NODE_NAME" ≠ "") ∧
        (o.NodeIP ≠ "" ∨ getenv "NODE_IP" ≠ "") ∧
        agentIdentifiersAreValid o.AgentIdentifiers = true) := by
  unfold AgentOptions.Validate
  by_cases h1 : o.NodeName = ""
  · by_cases h2 : getenv "NODE_NAME" = ""
    · simp [h1, h2]
    · simp [h1, h2, validateNodeIP_snd]
  · simp [h1, validateNodeIP_snd]

/-- C19. With the environment as an explicit input, `Validate` only ever fills in empty
fields, whether it succeeds or not: a non-empty `NodeName` or `NodeIP` is unchanged, an
empty one is afterwards still empty or equal to `$NODE_NAME` / `$NODE_IP`, and
`TunnelServerAddr`, `ApiserverAddr`, `KubeConfig`, `Version` and `AgentIdentifiers` are
unchanged. -/
theorem Validate_frame (o : AgentOptions) (getenv : String → String) :
    (o.NodeName ≠ "" → (o.Validate getenv).1.NodeName = o.NodeName) ∧
    (o.NodeIP ≠ "" → (o.Validate getenv).1.NodeIP = o.NodeIP) ∧
    (o.NodeName = "" → ((o.Validate getenv).1.NodeName = "" ∨
      (o.Validate getenv).1.NodeName = getenv "NODE_NAME")) ∧
    (o.NodeIP = "" → ((o.Validate getenv).1.NodeIP = "" ∨
      (o.Validate getenv).1.NodeIP = getenv "NODE_IP")) ∧
    (o.Validate getenv).1.TunnelServerAddr = o.TunnelServerAddr ∧
    (o.Validate getenv).1.ApiserverAddr = o.ApiserverAddr ∧
    (o.Validate getenv).1.KubeConfig = o.KubeConfig ∧
    (o.Validate getenv).1.Version = o.Version ∧
    (o.Validate getenv).1.AgentIdentifiers = o.AgentIdentifiers := by
  unfold AgentOptions.Validate
  by_cases h1 : o.NodeName = ""
  · by_cases h2 : getenv "NODE_NAME" = ""
    · simp [h1, h2]
      exact fun h => Or.inl h
    · simp only [h1, h2, if_true, if_false]
      rcases validateNodeIP_frame { o with NodeName := getenv "NODE_NAME" } getenv with h | h
      · rw [h]; simp
        exact fun h => Or.inl h
      · rw [h.2]
        have h3 : o.NodeIP = "" := h.1
        simp [h3]
  · simp only [h1, if_false]
    rcases validateNodeIP_frame o getenv with h | h
    · rw [h]; simp
      exact fun h => Or.inl h
    · rw [h.2]
      simp [h.1]

/-- C19 at options with no node name, run where only `$NODE_NAME` is set: the name is
filled in, the call fails on the node IP, and every other field is as before. -/
theorem Validate_frame_witness :
    (AgentOptions.Validate
      { NodeName := "", NodeIP := "", TunnelServerAddr := "10.0.0.1:10262",
        ApiserverAddr := "", KubeConfig := "", Version := false, AgentIdentifiers := "host=a" }
      (fun k => if k = "NODE_NAME" then "node-1" else "")) =
      ({ NodeName := "node-1", NodeIP := "", TunnelServerAddr := "10.0.0.1:10262",
         ApiserverAddr := "", KubeConfig := "", Version := false,
         AgentIdentifiers := "host=a" },
        some "either --node-ip or $NODE_IP has to be set") ∧
    (AgentOptions.Validate
      { NodeName := "", NodeIP := "", TunnelServerAddr := "10.0.0.1:10262",
        ApiserverAddr := "", KubeConfig := "", Version := false, AgentIdentifiers := "host=a" }
      (fun k => if k = "NODE_NAME" then "node-1" else "")).1.AgentIdentifiers = "host=a" :=
  ⟨by decide,
    (Validate_frame
      { NodeName := "", NodeIP := "", TunnelServerAddr := "10.0.0.1:10262",
        ApiserverAddr := "", KubeConfig := "", Version := false, AgentIdentifiers := "host=a" }
      (fun k => if k = "NODE_NAME" then "node-1" else "")).2.2.2.2.2.2.2.2⟩

/-- C13. For every `AgentOptions`, the config built by `Config` has `NodeName`, `NodeIP`
and `TunnelServerAddr` equal to the fields of the options, and `AgentIdentifiers` equal to
that of the options whenever that string is non-empty; only an empty identifiers string is
replaced, by the default `ipv4=<NodeIP>&host=<NodeName>`. -/
theorem Config_passes_through {κ : Type} (o : AgentOptions)
    (CreateClientSetKubeConfig CreateClientSetApiserverAddr : String → κ × Option String) :
    (o.Config CreateClientSetKubeConfig CreateClientSetApiserverAddr).1.NodeName =
      o.NodeName ∧
    (o.Config CreateClientSetKubeConfig CreateClientSetApiserverAddr).1.NodeIP = o.NodeIP ∧
    (o.Config CreateClientSetKubeConfig CreateClientSetApiserverAddr).1.TunnelServerAddr =
      o.TunnelServerAddr ∧
    (o.AgentIdentifiers ≠ "" →
      (o.Config CreateClientSetKubeConfig CreateClientSetApiserverAddr).1.AgentIdentifiers =
        o.AgentIdentifiers) ∧
    (o.AgentIdentifiers = "" →
      (o.Config CreateClientSetKubeConfig CreateClientSetApiserverAddr).1.AgentIdentifiers =
        "ipv4=" ++ o.NodeIP ++ "&host=" ++ o.NodeName) := by
  refine ⟨rfl, rfl, rfl, ?_, ?_⟩
  · intro h
    have h0 : ¬ o.AgentIdentifiers.utf8ByteSize = 0 :=
      fun e => h ((utf8ByteSize_eq_zero _).mp e)
    simp [AgentOptions.Config, h0]
  · intro h
    have h0 : o.AgentIdentifiers.utf8ByteSize = 0 := (utf8ByteSize_eq_zero _).mpr h
    simp [AgentOptions.Config, h0, defaultAgentIdentifiers]

/-- C13 at options with the identifiers `host=node-1`: they are passed through. -/
theorem Config_passes_through_witness :
    (AgentOptions.Config
      { NodeName := "node-1", NodeIP := "10.0.0.7", TunnelServerAddr := "10.0.0.1:10262",
        ApiserverAddr := "", KubeConfig := "", Version := false,
        AgentIdentifiers := "host=node-1" }
      (fun path => (path, none)) (fun addr => (addr, none))).1.AgentIdentifiers =
        "host=node-1" :=
  (Config_passes_through
    { NodeName := "node-1", NodeIP := "10.0.0.7", TunnelServerAddr := "10.0.0.1:10262",
      ApiserverAddr := "", KubeConfig := "", Version := false,
      AgentIdentifiers := "host=node-1" }
    (fun path => (path, none)) (fun addr => (addr, none))).2.2.2.1 (by decide)

end options

/-! ## Ports under several keys, and absent keys -/

namespace util

theorem resolve_of_dnat_ok (cm : StringMap) (insecureAddr secureAddr vh vs : String)
    (hd : ∀ v, mapGet cm dnatPortsPairKey = some v →
      ∃ t1, resolveDnatPairs insecureAddr secureAddr (strings.Split v ',')
        { ports := [], portMappings := [] } = .ok t1)
    (hh : mapGet cm httpProxyPortsKey = some vh)
    (hhs : mapGet cm httpsProxyPortsKey = some vs) :
    ∃ t1 : Table, t1.Consistent ∧
      resolveProxyPortsAndMappings cm insecureAddr secureAddr =
        ((addPorts secureAddr (strings.Split vs ',')
            (addPorts insecureAddr (strings.Split vh ',') t1)).ports,
          (addPorts secureAddr (strings.Split vs ',')
            (addPorts insecureAddr (strings.Split vh ',') t1)).portMappings, none) := by
  cases hdv : mapGet cm dnatPortsPairKey with
  | none =>
    refine ⟨_, empty_consistent, ?_⟩
    simp only [resolveProxyPortsAndMappings, hdv, hh, hhs]
  | some v =>
    obtain ⟨t1, ht1⟩ := hd v hdv
    refine ⟨t1, resolveDnatPairs_consistent _ _ _ _ t1 empty_consistent ht1, ?_⟩
    simp only [resolveProxyPortsAndMappings, hdv, ht1, hh, hhs]

/-- C14, amended. For every port `p` listed under both `http-proxy-ports` and
`https-proxy-ports` of one record whose `dnat-ports-pair` key is absent or resolves without
error, the resolver raises no error, `p` occurs exactly once in `ports`, and
`portMappings[p]` is the destination of the later category, `secureAddr`. -/
theorem resolve_port_under_both_keys (cm : StringMap)
    (insecureAddr secureAddr vh vs p : String)
    (hd : ∀ v, mapGet cm dnatPortsPairKey = some v →
      ∃ t1, resolveDnatPairs insecureAddr secureAddr (strings.Split v ',')
        { ports := [], portMappings := [] } = .ok t1)
    (hh : mapGet cm httpProxyPortsKey = some vh)
    (hhs : mapGet cm httpsProxyPortsKey = some vs)
    (_hp1 : p ∈ strings.Split vh ',') (hp2 : p ∈ strings.Split vs ',') :
    (resolveProxyPortsAndMappings cm insecureAddr secureAddr).2.2 = none ∧
    (resolveProxyPortsAndMappings cm insecureAddr secureAddr).1.count p = 1 ∧
    mapGet (resolveProxyPortsAndMappings cm insecureAddr secureAddr).2.1 p =
      some secureAddr := by
  obtain ⟨t1, hc, heq⟩ := resolve_of_dnat_ok cm insecureAddr secureAddr vh vs hd hh hhs
  rw [heq]
  have hcons := addPorts_consistent secureAddr (strings.Split vs ',') _
    (addPorts_consistent insecureAddr (strings.Split vh ',') t1 hc)
  refine ⟨rfl, ?_, ?_⟩
  · apply List.count_eq_one_of_mem hcons.2
    rw [mem_addPorts_ports]
    exact Or.inr hp2
  · show mapGet (addPorts secureAddr (strings.Split vs ',')
      (addPorts insecureAddr (strings.Split vh ',') t1)).portMappings p = some secureAddr
    rw [mapGet_addPorts]
    simp [hp2]

/-- C14, amended, at a record that lists `9100` under a dnat pair, under
`http-proxy-ports` and under `https-proxy-ports`. -/
theorem resolve_port_under_both_keys_witness :
    resolveProxyPortsAndMappings
      [("dnat-ports-pair", "9100=10264"), ("http-proxy-ports", "9100,9200"),
        ("https-proxy-ports", "9300,9100")]
      "1.1.1.1:10264" "1.1.1.1:10263" =
        (["9100", "9200", "9300"],
          [("9100", "1.1.1.1:10263"), ("9200", "1.1.1.1:10264"),
            ("9300", "1.1.1.1:10263")], none) ∧
    (resolveProxyPortsAndMappings
      [("dnat-ports-pair", "9100=10264"), ("http-proxy-ports", "9100,9200"),
        ("https-proxy-ports", "9300,9100")]
      "1.1.1.1:10264" "1.1.1.1:10263").1.count "9100" = 1 :=
  ⟨by decide,
    (resolve_port_under_both_keys
      [("dnat-ports-pair", "9100=10264"), ("http-proxy-ports", "9100,9200"),
        ("https-proxy-ports", "9300,9100")]
      "1.1.1.1:10264" "1.1.1.1:10263" "9100,9200" "9300,9100" "9100"
      (fun v hv => ⟨{ ports := ["9100"], portMappings := [("9100", "1.1.1.1:10264")] }, by
        have hv2 : v = "9100=10264" := by
          have h0 : mapGet [("dnat-ports-pair", "9100=10264"),
              ("http-proxy-ports", "9100,9200"), ("https-proxy-ports", "9300,9100")]
              dnatPortsPairKey = some "9100=10264" := by decide
          rw [h0] at hv
          exact (Option.some.inj hv).symm
        subst hv2
        rfl⟩)
      (by decide) (by decide) (by decide) (by decide)).2.1⟩

/-- C14 as stated fails: `9100` is listed under both keys, but the record also has a
malformed `dnat-ports-pair` entry, so the resolver raises FormatError and `9100` is in no
table. -/
theorem resolve_port_under_both_keys_counterexample :
    "9100" ∈ strings.Split "9100" ',' ∧
    mapGet [("dnat-ports-pair", "9000"), ("http-proxy-ports", "9100"),
      ("https-proxy-ports", "9100")] httpProxyPortsKey = some "9100" ∧
    mapGet [("dnat-ports-pair", "9000"), ("http-proxy-ports", "9100"),
      ("https-proxy-ports", "9100")] httpsProxyPortsKey = some "9100" ∧
    resolveProxyPortsAndMappings
      [("dnat-ports-pair", "9000"), ("http-proxy-ports", "9100"),
        ("https-proxy-ports", "9100")]
      "1.1.1.1:10264" "1.1.1.1:10263" = ([], [], some ResolveError.FormatError) := by
  decide

theorem addPorts_listedPorts (cm : StringMap) (key dst : String) (t : Table) :
    (match mapGet cm key with
      | some v => addPorts dst (strings.Split v ',') t
      | none => t) = addPorts dst (listedPorts cm key) t := by
  unfold listedPorts
  cases mapGet cm key <;> rfl

theorem resolve_of_dnat_table (cm : StringMap) (insecureAddr secureAddr : String) (t1 : Table)
    (h : (mapGet cm dnatPortsPairKey = none ∧ t1 = { ports := [], portMappings := [] }) ∨
      ∃ vd, mapGet cm dnatPortsPairKey = some vd ∧
        resolveDnatPairs insecureAddr secureAddr (strings.Split vd ',')
          { ports := [], portMappings := [] } = .ok t1) :
    resolveProxyPortsAndMappings cm insecureAddr secureAddr =
      ((addPorts secureAddr (listedPorts cm httpsProxyPortsKey)
          (addPorts insecureAddr (listedPorts cm httpProxyPortsKey) t1)).ports,
        (addPorts secureAddr (listedPorts cm httpsProxyPortsKey)
          (addPorts insecureAddr (listedPorts cm httpProxyPortsKey) t1)).portMappings,
        none) := by
  rw [← addPorts_listedPorts cm httpProxyPortsKey insecureAddr t1,
    ← addPorts_listedPorts cm httpsProxyPortsKey secureAddr]
  rcases h with ⟨hd, ht⟩ | ⟨vd, hd, hr⟩
  · subst ht
    simp only [resolveProxyPortsAndMappings, hd]
  · simp only [resolveProxyPortsAndMappings, hd, hr]

theorem table_of_contributions (insecureAddr secureAddr : String) (lh ls : List String)
    (t1 : Table) (p : String) :
    (p ∈ (addPorts secureAddr ls (addPorts insecureAddr lh t1)).ports ↔
      (p ∈ t1.ports ∨ p ∈ lh ∨ p ∈ ls)) ∧
    mapGet (addPorts secureAddr ls (addPorts insecureAddr lh t1)).portMappings p =
      (if p ∈ ls then some secureAddr
        else if p ∈ lh then some insecureAddr else mapGet t1.portMappings p) := by
  constructor
  · rw [mem_addPorts_ports, mem_addPorts_ports]
    tauto
  · rw [mapGet_addPorts, mapGet_addPorts]

/-- C15. A record that contains none of the keys `dnat-ports-pair`, `http-proxy-ports` and
`https-proxy-ports`, whatever other keys it has, resolves to no error, no ports and no
mappings. A record missing some of these keys resolves to the table of the contributions
of the keys that are present, an absent key listing no port: without `dnat-ports-pair` the
ports are exactly those listed under `http-proxy-ports` and `https-proxy-ports`, an https
port mapped to `secureAddr` and any other http port to `insecureAddr`; with a
`dnat-ports-pair` value whose pairs resolve to a table, the ports are those of that table
and the listed ones, a port listed under neither proxy key keeping its dnat mapping. -/
theorem resolve_absent_keys (cm : StringMap) (insecureAddr secureAddr : String) :
    (mapGet cm dnatPortsPairKey = none → mapGet cm httpProxyPortsKey = none →
      mapGet cm httpsProxyPortsKey = none →
      resolveProxyPortsAndMappings cm insecureAddr secureAddr = ([], [], none)) ∧
    (mapGet cm dnatPortsPairKey = none →
      (resolveProxyPortsAndMappings cm insecureAddr secureAddr).2.2 = none ∧
      (∀ p, p ∈ (resolveProxyPortsAndMappings cm insecureAddr secureAddr).1 ↔
        (p ∈ listedPorts cm httpProxyPortsKey ∨ p ∈ listedPorts cm httpsProxyPortsKey)) ∧
      (∀ p, mapGet (resolveProxyPortsAndMappings cm insecureAddr secureAddr).2.1 p =
        (if p ∈ listedPorts cm httpsProxyPortsKey then some secureAddr
          else if p ∈ listedPorts cm httpProxyPortsKey then some insecureAddr
          else none))) ∧
    (∀ vd t1, mapGet cm dnatPortsPairKey = some vd →
      resolveDnatPairs insecureAddr secureAddr (strings.Split vd ',')
        { ports := [], portMappings := [] } = .ok t1 →
      (resolveProxyPortsAndMappings cm insecureAddr secureAddr).2.2 = none ∧
      (∀ p, p ∈ (resolveProxyPortsAndMappings cm insecureAddr secureAddr).1 ↔
        (p ∈ t1.ports ∨ p ∈ listedPorts cm httpProxyPortsKey ∨
          p ∈ listedPorts cm httpsProxyPortsKey)) ∧
      (∀ p, mapGet (resolveProxyPortsAndMappings cm insecureAddr secureAddr).2.1 p =
        (if p ∈ listedPorts cm httpsProxyPortsKey then some secureAddr
          else if p ∈ listedPorts cm httpProxyPortsKey then some insecureAddr
          else mapGet t1.portMappings p))) := by
  refine ⟨?_, ?_, ?_⟩
  · intro h1 h2 h3
    simp only [resolveProxyPortsAndMappings, h1, h2, h3]
  · intro hd
    rw [resolve_of_dnat_table cm insecureAddr secureAddr _ (Or.inl ⟨hd, rfl⟩)]
    refine ⟨rfl, ?_, ?_⟩
    · intro p
      have h := (table_of_contributions insecureAddr secureAddr
        (listedPorts cm httpProxyPortsKey) (listedPorts cm httpsProxyPortsKey)
        { ports := [], portMappings := [] } p).1
      simpa using h
    · intro p
      exact (table_of_contributions insecureAddr secureAddr
        (listedPorts cm httpProxyPortsKey) (listedPorts cm httpsProxyPortsKey)
        { ports := [], portMappings := [] } p).2
  · intro vd t1 hd hr
    rw [resolve_of_dnat_table cm insecureAddr secureAddr t1 (Or.inr ⟨vd, hd, hr⟩)]
    refine ⟨rfl, ?_, ?_⟩
    · intro p
      exact (table_of_contributions insecureAddr secureAddr
        (listedPorts cm httpProxyPortsKey) (listedPorts cm httpsProxyPortsKey) t1 p).1
    · intro p
      exact (table_of_contributions insecureAddr secureAddr
        (listedPorts cm httpProxyPortsKey) (listedPorts cm httpsProxyPortsKey) t1 p).2

/-- C15 at a record with only foreign keys, which resolves to the empty table, and at a
record that misses `https-proxy-ports` and has a foreign key: its table holds the dnat
port `9200` and the http port `9100`, each with its destination. -/
theorem resolve_absent_keys_witness :
    resolveProxyPortsAndMappings [("localhost-proxy-ports", "10250"), ("other", "x")]
      "1.1.1.1:10264" "1.1.1.1:10263" = ([], [], none) ∧
    resolveProxyPortsAndMappings
      [("other", "x"), ("http-proxy-ports", "9100"), ("dnat-ports-pair", "9200=10263")]
      "1.1.1.1:10264" "1.1.1.1:10263" =
        (["9200", "9100"], [("9200", "1.1.1.1:10263"), ("9100", "1.1.1.1:10264")], none) ∧
    listedPorts
      [("other", "x"), ("http-proxy-ports", "9100"), ("dnat-ports-pair", "9200=10263")]
      httpsProxyPortsKey = [] ∧
    (∀ p, p ∈ (resolveProxyPortsAndMappings
        [("other", "x"), ("http-proxy-ports", "9100"), ("dnat-ports-pair", "9200=10263")]
        "1.1.1.1:10264" "1.1.1.1:10263").1 ↔
      (p ∈ ["9200"] ∨
        p ∈ listedPorts
          [("other", "x"), ("http-proxy-ports", "9100"), ("dnat-ports-pair", "9200=10263")]
          httpProxyPortsKey ∨
        p ∈ listedPorts
          [("other", "x"), ("http-proxy-ports", "9100"), ("dnat-ports-pair", "9200=10263")]
          httpsProxyPortsKey)) :=
  ⟨(resolve_absent_keys [("localhost-proxy-ports", "10250"), ("other", "x")]
      "1.1.1.1:10264" "1.1.1.1:10263").1 (by decide) (by decide) (by decide),
    by decide, by decide,
    ((resolve_absent_keys
      [("other", "x"), ("http-proxy-ports", "9100"), ("dnat-ports-pair", "9200=10263")]
      "1.1.1.1:10264" "1.1.1.1:10263").2.2 "9200=10263"
      { ports := ["9200"], portMappings := [("9200", "1.1.1.1:10263")] }
      (by decide) (by rfl)).2.1⟩

end util

/-! ## More on splitting: pieces, joining, appending -/

namespace strings

theorem splitChars_cons_of_ne (sep c : Char) (cs p : List Char) (ps : List (List Char))
    (hc : c ≠ sep) (h : splitChars sep cs = p :: ps) :
    splitChars sep (c :: cs) = (c :: p) :: ps := by
  simp [splitChars, hc, h]

theorem splitChars_cons_sep (sep : Char) (cs : List Char) :
    splitChars sep (sep :: cs) = [] :: splitChars sep cs := by
  simp [splitChars]

theorem splitChars_piece (sep : Char) (l : List Char) :
    ∀ p ∈ splitChars sep l, sep ∉ p ∧ ∀ c ∈ p, c ∈ l := by
  induction l with
  | nil =>
    intro p hp
    simp [splitChars] at hp
    subst hp
    simp
  | cons c cs ih =>
    obtain ⟨q, qs, hq⟩ := List.exists_cons_of_ne_nil (splitChars_ne_nil sep cs)
    intro p hp
    by_cases hc : c = sep
    · subst hc
      rw [splitChars_cons_sep] at hp
      rcases List.mem_cons.mp hp with h | h
      · subst h
        simp
      · obtain ⟨h1, h2⟩ := ih p h
        exact ⟨h1, fun x hx => List.mem_cons_of_mem _ (h2 x hx)⟩
    · rw [splitChars_cons_of_ne sep c cs q qs hc hq] at hp
      rcases List.mem_cons.mp hp with h | h
      · subst h
        obtain ⟨h1, h2⟩ := ih q (by rw [hq]; simp)
        constructor
        · intro hmem
          rcases List.mem_cons.mp hmem with h3 | h3
          · exact hc h3.symm
          · exact h1 h3
        · intro x hx
          rcases List.mem_cons.mp hx with h3 | h3
          · rw [h3]; simp
          · exact List.mem_cons_of_mem _ (h2 x h3)
      · obtain ⟨h1, h2⟩ := ih p (by rw [hq]; exact List.mem_cons_of_mem _ h)
        exact ⟨h1, fun x hx => List.mem_cons_of_mem _ (h2 x hx)⟩

theorem splitChars_joinChars (sep : Char) (es : List (List Char)) (hne : es ≠ [])
    (h : ∀ e ∈ es, sep ∉ e) : splitChars sep (joinChars sep es) = es := by
  induction es with
  | nil => exact absurd rfl hne
  | cons e rest ih =>
    cases rest with
    | nil =>
      simp only [joinChars]
      exact splitChars_of_not_mem sep e (h e (by simp))
    | cons r rest1 =>
      simp only [joinChars]
      rw [splitChars_append_sep, splitChars_of_not_mem sep e (h e (by simp)),
        ih (by simp) (fun x hx => h x (List.mem_cons_of_mem _ hx))]
      rfl

theorem splitChars_append (sep : Char) (x y : List Char) :
    ∃ xs lx fy ys, splitChars sep x = xs ++ [lx] ∧ splitChars sep y = fy :: ys ∧
      splitChars sep (x ++ y) = xs ++ (lx ++ fy) :: ys := by
  induction x with
  | nil =>
    obtain ⟨fy, ys, hy⟩ := List.exists_cons_of_ne_nil (splitChars_ne_nil sep y)
    exact ⟨[], [], fy, ys, by simp [splitChars], hy, by simp [hy]⟩
  | cons c cs ih =>
    obtain ⟨xs, lx, fy, ys, h1, h2, h3⟩ := ih
    by_cases hc : c = sep
    · subst hc
      refine ⟨[] :: xs, lx, fy, ys, ?_, h2, ?_⟩
      · rw [splitChars_cons_sep, h1]; rfl
      · rw [List.cons_append, splitChars_cons_sep, h3]; rfl
    · cases xs with
      | nil =>
        refine ⟨[], c :: lx, fy, ys, ?_, h2, ?_⟩
        · rw [splitChars_cons_of_ne sep c cs lx [] hc h1]; rfl
        · rw [List.cons_append, splitChars_cons_of_ne sep c (cs ++ y) (lx ++ fy) ys hc h3]
          rfl
      | cons p ps =>
        refine ⟨(c :: p) :: ps, lx, fy, ys, ?_, h2, ?_⟩
        · rw [splitChars_cons_of_ne sep c cs p (ps ++ [lx]) hc h1]; rfl
        · rw [List.cons_append,
            splitChars_cons_of_ne sep c (cs ++ y) p (ps ++ (lx ++ fy) :: ys) hc h3]
          rfl

theorem Split_piece (s : String) (sep : Char) :
    ∀ p ∈ Split s sep, sep ∉ p.data ∧ ∀ c ∈ p.data, c ∈ s.data := by
  intro p hp
  simp only [Split, List.mem_map] at hp
  obtain ⟨q, hq, rfl⟩ := hp
  exact splitChars_piece sep s.data q hq

theorem Split_Join (es : List String) (sep : Char) (hne : es ≠ [])
    (h : ∀ e ∈ es, sep ∉ e.data) : Split (Join es sep) sep = es := by
  simp only [Split, Join]
  rw [splitChars_joinChars sep (es.map String.data) (by simpa using hne)
    (by
      intro e he
      simp only [List.mem_map] at he
      obtain ⟨x, hx, rfl⟩ := he
      exact h x hx)]
  rw [List.map_map]
  exact (List.map_congr_left (fun x _ => rfl)).trans (List.map_id es)

end strings

/-! ## The value of an entry, and the default identifiers -/

namespace options

theorem entryIsValid_of_split (e t v : String) (h : strings.Split e '=' = [t, v]) :
    entryIsValid e ↔
      (t = agent.Host ∨ t = agent.CIDR ∨ t = agent.IPv4 ∨ t = agent.IPv6 ∨ t = agent.UID) := by
  unfold entryIsValid
  rw [h]
  constructor
  · rintro ⟨t1, v1, hp, ht⟩
    simp only [List.cons.injEq, and_true] at hp
    rw [hp.1]
    exact ht
  · intro ht
    exact ⟨t, v, rfl, ht⟩

theorem Split_pair (t v : String) (ht : '=' ∉ t.data) (hv : '=' ∉ v.data) :
    strings.Split (t ++ "=" ++ v) '=' = [t, v] := by
  rw [show ("=" : String) = String.singleton '=' from rfl, strings.Split_append_sep,
    strings.Split_of_not_mem t '=' ht, strings.Split_of_not_mem v '=' hv]
  rfl

theorem exists_split_of_getElem (es : List String) (i : Nat) (e : String)
    (h : es[i]? = some e) : ∃ pre post, es = pre ++ e :: post ∧ pre.length = i := by
  induction es generalizing i with
  | nil => simp at h
  | cons x rest ih =>
    cases i with
    | zero =>
      simp only [List.getElem?_cons_zero, Option.some.injEq] at h
      exact ⟨[], rest, by rw [h]; rfl, rfl⟩
    | succ j =>
      simp only [List.getElem?_cons_succ] at h
      obtain ⟨pre, post, h1, h2⟩ := ih j h
      exact ⟨x :: pre, post, by rw [h1]; rfl, by simp [h2]⟩

theorem set_length_append (pre post : List String) (e e1 : String) :
    (pre ++ e :: post).set pre.length e1 = pre ++ e1 :: post := by
  induction pre with
  | nil => rfl
  | cons x rest ih => simp [ih]

theorem agentIdentifiersAreValid_of_split (s : String) (es : List String)
    (h : strings.Split s ',' = es) (hne : "" ∉ es) :
    agentIdentifiersAreValid s = entriesAreValid es := by
  have hs : s ≠ "" := by
    intro h0
    rw [h0, Split_empty] at h
    exact hne (by rw [← h]; simp)
  rw [agentIdentifiersAreValid_of_ne_empty s hs, h]

/-- C16. The value part of an entry is opaque to `agentIdentifiersAreValid`: for every
identifiers string `s` and every entry of it that reads `t=v`, writing the string back with
that entry replaced by `t=v1`, for any `v1` that contains neither `,` nor `=` (the empty
string included), does not change the result. -/
theorem agentIdentifiersAreValid_value_opaque (s e t v v1 : String) (i : Nat)
    (he : (strings.Split s ',')[i]? = some e) (hp : strings.Split e '=' = [t, v])
    (h1 : ',' ∉ v1.data) (h2 : '=' ∉ v1.data) :
    agentIdentifiersAreValid
        (strings.Join ((strings.Split s ',').set i (t ++ "=" ++ v1)) ',') =
      agentIdentifiersAreValid s := by
  obtain ⟨pre, post, hes, hlen⟩ := exists_split_of_getElem _ i e he
  have hmem : e ∈ strings.Split s ',' := by rw [hes]; simp
  have hecomma := (strings.Split_piece s ',' e hmem).1
  have htmem : t ∈ strings.Split e '=' := by rw [hp]; simp
  have hteq := (strings.Split_piece e '=' t htmem).1
  have htcomma : ',' ∉ t.data :=
    fun hc => hecomma ((strings.Split_piece e '=' t htmem).2 ',' hc)
  have he1comma : ',' ∉ (t ++ "=" ++ v1).data := by
    simp only [String.data_append, List.mem_append, not_or]
    exact ⟨⟨htcomma, by decide⟩, h1⟩
  have hp1 : strings.Split (t ++ "=" ++ v1) '=' = [t, v1] := Split_pair t v1 hteq h2
  have hset : (strings.Split s ',').set i (t ++ "=" ++ v1) =
      pre ++ (t ++ "=" ++ v1) :: post := by
    rw [hes, ← hlen, set_length_append]
  have hall : ∀ x ∈ pre ++ (t ++ "=" ++ v1) :: post, ',' ∉ x.data := by
    intro x hx
    rcases List.mem_append.mp hx with h | h
    · exact (strings.Split_piece s ',' x (by rw [hes]; simp [h])).1
    · rcases List.mem_cons.mp h with h | h
      · rw [h]; exact he1comma
      · exact (strings.Split_piece s ',' x (by rw [hes]; simp [h])).1
  have hsplit1 := strings.Split_Join (pre ++ (t ++ "=" ++ v1) :: post) ',' (by simp) hall
  have hvalid : entryIsValid (t ++ "=" ++ v1) ↔ entryIsValid e := by
    rw [entryIsValid_of_split _ t v1 hp1, entryIsValid_of_split e t v hp]
  by_cases hempty : "" ∈ pre ++ post
  · have h3 : "" ∈ strings.Split s ',' := by
      rw [hes]
      rcases List.mem_append.mp hempty with h | h
      · simp [h]
      · simp [h]
    have h4 : "" ∈ pre ++ (t ++ "=" ++ v1) :: post := by
      rcases List.mem_append.mp hempty with h | h
      · simp [h]
      · simp [h]
    have hs : s ≠ "" := by
      intro h0
      rw [h0, Split_empty] at hmem
      simp only [List.mem_singleton] at hmem
      rw [hmem, Split_empty] at hp
      simp at hp
    have hs1 : strings.Join (pre ++ (t ++ "=" ++ v1) :: post) ',' ≠ "" := by
      intro h0
      rw [h0, Split_empty] at hsplit1
      have h5 : t ++ "=" ++ v1 ∈ [""] := by rw [hsplit1]; simp
      simp only [List.mem_singleton] at h5
      have h6 := congrArg String.data h5
      simp at h6
    rw [hset, agentIdentifiersAreValid_of_ne_empty _ hs1, hsplit1,
      agentIdentifiersAreValid_of_ne_empty s hs,
      entriesAreValid_of_mem_empty _ h4, entriesAreValid_of_mem_empty _ h3]
  · have hne1 : "" ∉ pre ++ (t ++ "=" ++ v1) :: post := by
      intro h
      rcases List.mem_append.mp h with h | h
      · exact hempty (by simp [h])
      · rcases List.mem_cons.mp h with h | h
        · have h6 := congrArg String.data h
          simp at h6
        · exact hempty (by simp [h])
    have hne : "" ∉ pre ++ e :: post := by
      intro h
      rcases List.mem_append.mp h with h | h
      · exact hempty (by simp [h])
      · rcases List.mem_cons.mp h with h | h
        · rw [← h, Split_empty] at hp
          simp at hp
        · exact hempty (by simp [h])
    rw [hset, agentIdentifiersAreValid_of_split _ _ hsplit1 hne1,
      agentIdentifiersAreValid_of_split s _ hes hne, Bool.eq_iff_iff,
      entriesAreValid_append, entriesAreValid_append, Bool.and_eq_true, Bool.and_eq_true,
      entriesAreValid_cons, entriesAreValid_cons, hvalid]

/-- C16 at the string `host=a,IPv4=10.0.0.1`, whose first entry gets the empty value:
`host=,IPv4=10.0.0.1` is valid as well. -/
theorem agentIdentifiersAreValid_value_opaque_witness :
    strings.Join ((strings.Split "host=a,IPv4=10.0.0.1" ',').set 0 ("host" ++ "=" ++ "")) ','
      = "host=,IPv4=10.0.0.1" ∧
    agentIdentifiersAreValid "host=a,IPv4=10.0.0.1" = true ∧
    agentIdentifiersAreValid
        (strings.Join ((strings.Split "host=a,IPv4=10.0.0.1" ',').set 0
          ("host" ++ "=" ++ "")) ',') =
      agentIdentifiersAreValid "host=a,IPv4=10.0.0.1" :=
  ⟨by decide, by decide,
    agentIdentifiersAreValid_value_opaque "host=a,IPv4=10.0.0.1" "host=a" "host" "a" "" 0
      (by decide) (by decide) (by decide) (by decide)⟩

end options

namespace options

theorem isIdentifierType_no_amp (t : String)
    (h : t = agent.Host ∨ t = agent.CIDR ∨ t = agent.IPv4 ∨ t = agent.IPv6 ∨ t = agent.UID) :
    '&' ∉ t.data := by
  rcases h with h | h | h | h | h <;> subst h <;> decide

theorem splitChars_default (a b : List Char) :
    ∃ lx p pre post,
      strings.splitChars ',' (a ++ ['&', 'h', 'o', 's', 't'] ++ '=' :: b) =
        pre ++ (lx ++ ['&', 'h', 'o', 's', 't'] ++ '=' :: p) :: post := by
  obtain ⟨xs, lx, fy, ys, _, h2, h3⟩ :=
    strings.splitChars_append ',' a ['&', 'h', 'o', 's', 't']
  rw [strings.splitChars_of_not_mem ',' ['&', 'h', 'o', 's', 't'] (by decide)] at h2
  simp only [List.cons.injEq] at h2
  obtain ⟨hfy, hys⟩ := h2
  subst hfy
  subst hys
  obtain ⟨XS, LX, FY, YS, H1, H2, H3⟩ :=
    strings.splitChars_append ',' (a ++ ['&', 'h', 'o', 's', 't']) ('=' :: b)
  rw [h3] at H1
  have hLX : lx ++ ['&', 'h', 'o', 's', 't'] = LX := by
    have := List.append_inj' H1 rfl
    simpa using this.2
  obtain ⟨p, ps, hp⟩ := List.exists_cons_of_ne_nil (strings.splitChars_ne_nil ',' b)
  rw [strings.splitChars_cons_of_ne ',' '=' b p ps (by decide) hp] at H2
  simp only [List.cons.injEq] at H2
  obtain ⟨hFY, _⟩ := H2
  refine ⟨lx, p, XS, YS, ?_⟩
  rw [H3, ← hLX, ← hFY]

theorem entry_with_amp_host (lx p : List Char) :
    (2 < (strings.splitChars '=' (lx ++ ['&', 'h', 'o', 's', 't'] ++ '=' :: p)).length) ∨
      strings.splitChars '=' (lx ++ ['&', 'h', 'o', 's', 't'] ++ '=' :: p) =
        [lx ++ ['&', 'h', 'o', 's', 't'], p] := by
  rw [strings.splitChars_append_sep]
  by_cases h1 : '=' ∈ lx ++ ['&', 'h', 'o', 's', 't']
  · left
    have ha : (strings.splitChars '=' (lx ++ ['&', 'h', 'o', 's', 't'])).length ≠ 1 :=
      fun e => (strings.splitChars_length_eq_one _ _).mp e h1
    have hb := List.length_pos.mpr
      (strings.splitChars_ne_nil '=' (lx ++ ['&', 'h', 'o', 's', 't']))
    have hc := List.length_pos.mpr (strings.splitChars_ne_nil '=' p)
    rw [List.length_append]
    omega
  · by_cases h2 : '=' ∈ p
    · left
      have ha : (strings.splitChars '=' p).length ≠ 1 :=
        fun e => (strings.splitChars_length_eq_one _ _).mp e h2
      have hb := List.length_pos.mpr
        (strings.splitChars_ne_nil '=' (lx ++ ['&', 'h', 'o', 's', 't']))
      have hc := List.length_pos.mpr (strings.splitChars_ne_nil '=' p)
      rw [List.length_append]
      omega
    · right
      rw [strings.splitChars_of_not_mem _ _ h1, strings.splitChars_of_not_mem _ _ h2]
      rfl

/-- C18. For every node IP and node name, the default identifiers string
`ipv4=<NodeIP>&host=<NodeName>` that `Config` substitutes for an empty `AgentIdentifiers`
is rejected by `agentIdentifiersAreValid`: the entry containing `&host=` either has more
than 2 parts between `=` or has a type part ending in `&host`. -/
theorem default_identifiers_rejected (nodeIP nodeName : String) :
    agentIdentifiersAreValid ("ipv4=" ++ nodeIP ++ "&host=" ++ nodeName) = false ∧
    ∃ e ∈ strings.Split ("ipv4=" ++ nodeIP ++ "&host=" ++ nodeName) ',', ∃ x y,
      e = x ++ "&host=" ++ y ∧
      (2 < (strings.Split e '=').length ∨ strings.Split e '=' = [x ++ "&host", y]) := by
  have hdata : ("ipv4=" ++ nodeIP ++ "&host=" ++ nodeName).data =
      ("ipv4=" ++ nodeIP).data ++ ['&', 'h', 'o', 's', 't'] ++ '=' :: nodeName.data := by
    simp [String.data_append]
  obtain ⟨lx, p, pre, post, hsplit⟩ :=
    splitChars_default ("ipv4=" ++ nodeIP).data nodeName.data
  have hne : "ipv4=" ++ nodeIP ++ "&host=" ++ nodeName ≠ "" := by
    intro h
    have := congrArg String.data h
    rw [hdata] at this
    simp at this
  have hxy : String.mk (lx ++ ['&', 'h', 'o', 's', 't'] ++ '=' :: p) =
      String.mk lx ++ "&host=" ++ String.mk p := by
    apply String.ext
    simp [String.data_append]
  have hmem : String.mk lx ++ "&host=" ++ String.mk p ∈
      strings.Split ("ipv4=" ++ nodeIP ++ "&host=" ++ nodeName) ',' := by
    rw [← hxy]
    simp only [strings.Split, hdata, hsplit, List.map_append, List.map_cons]
    simp
  have hparts : 2 < (strings.Split (String.mk lx ++ "&host=" ++ String.mk p) '=').length ∨
      strings.Split (String.mk lx ++ "&host=" ++ String.mk p) '=' =
        [String.mk lx ++ "&host", String.mk p] := by
    rw [← hxy]
    simp only [strings.Split, List.length_map]
    rcases entry_with_amp_host lx p with h | h
    · exact Or.inl h
    · right
      rw [h]
      simp only [List.map_cons, List.map_nil, List.cons.injEq, and_true]
      apply String.ext
      simp [String.data_append]
  refine ⟨?_, _, hmem, String.mk lx, String.mk p, rfl, hparts⟩
  rw [agentIdentifiersAreValid_of_ne_empty _ hne, ← Bool.not_eq_true, entriesAreValid_iff]
  intro hall
  obtain ⟨t, v, hp, ht⟩ := hall _ hmem
  rcases hparts with h | h
  · rw [hp] at h
    simp at h
  · rw [hp] at h
    simp only [List.cons.injEq, and_true] at h
    have hamp := isIdentifierType_no_amp t ht
    rw [h.1] at hamp
    simp [String.data_append] at hamp

end options
